import Mathlib

/-!
Shallow embedding of the A-SABR routing engine core (Rust) and proofs about it.

Numeric model: the Rust code computes over `f64`; times, volumes, rates and
delays are embedded as rationals (`Rat`), so every arithmetic identity below
is exact.  Machine-level float rounding is outside the model.

Rust names are kept wherever Lean allows.  Functions that mutate `&mut self`
are embedded as state-passing functions returning the updated value.
-/

set_option autoImplicit false

/-- The `types::Date` (real-valued time). -/
abbrev Date := Rat

/-- The `types::Duration`. -/
abbrev Duration := Rat

/-- The `types::Volume`. -/
abbrev Volume := Rat

/-- The `types::DataRate`. -/
abbrev DataRate := Rat

/-- The `types::NodeID`. -/
abbrev NodeID := Nat

/-- The `types::Priority`. -/
abbrev Priority := Nat

/-- The `bundle::Bundle` (fields as used throughout the repository, e.g. the
`volume_management` example constructs all five fields). -/
structure Bundle where
  source : NodeID
  destinations : List NodeID
  priority : Priority
  size : Volume
  expiration : Date
  deriving DecidableEq, Repr

/-- The `contact::ContactInfo`. The Rust field `end` is a Lean keyword and is
embedded as `stop`. -/
structure ContactInfo where
  tx_node : NodeID
  rx_node : NodeID
  start : Date
  stop : Date
  deriving DecidableEq, Repr

/-- The `contact_manager::ContactManagerTxData`. -/
structure ContactManagerTxData where
  tx_start : Date
  tx_end : Date
  delay : Duration
  expiration : Date
  arrival : Date
  deriving DecidableEq, Repr

/-- State of a manager generated by `generate_basic_volume_manager!`
(fields `rate`, `delay`, `queue_size`, `original_volume`).  The macro's
boolean parameters `add_delay` / `auto_update` become explicit arguments of
the operations. -/
structure BasicVolumeManager where
  rate : DataRate
  delay : Duration
  queue_size : Volume
  original_volume : Volume
  deriving DecidableEq, Repr

/-- The `$manager_name::new(rate, delay)` from `generate_basic_volume_manager!`. -/
def BasicVolumeManager.new (rate : DataRate) (delay : Duration) : BasicVolumeManager :=
  { rate := rate, delay := delay, queue_size := 0, original_volume := 0 }

/-- The `dry_run_tx` from `generate_basic_volume_manager!`
(src/contact_manager/mod.rs, lines 307-338). -/
def BasicVolumeManager.dry_run_tx (add_delay : Bool) (m : BasicVolumeManager)
    (contact_data : ContactInfo) (at_time : Date) (bundle : Bundle) :
    Option ContactManagerTxData :=
  if bundle.size > m.original_volume - m.queue_size then
    none
  else
    let tx_start0 : Date := if contact_data.start > at_time then contact_data.start else at_time
    let tx_start : Date := if add_delay then tx_start0 + m.queue_size / m.rate else tx_start0
    let tx_end : Date := tx_start + bundle.size / m.rate
    if tx_end > contact_data.stop then
      none
    else
      some { tx_start := tx_start, tx_end := tx_end, delay := m.delay,
             expiration := contact_data.stop, arrival := m.delay + tx_end }

/-- The `schedule_tx` from `generate_basic_volume_manager!`
(src/contact_manager/mod.rs, lines 354-368): re-runs the dry run and, when
`auto_update`, adds the bundle size to the queue. -/
def BasicVolumeManager.schedule_tx (add_delay auto_update : Bool) (m : BasicVolumeManager)
    (contact_data : ContactInfo) (at_time : Date) (bundle : Bundle) :
    Option (ContactManagerTxData × BasicVolumeManager) :=
  match m.dry_run_tx add_delay contact_data at_time bundle with
  | some data =>
      some (data, if auto_update then { m with queue_size := m.queue_size + bundle.size } else m)
  | none => none

/-- The `try_init` from `generate_basic_volume_manager!`. -/
def BasicVolumeManager.try_init (m : BasicVolumeManager) (contact_data : ContactInfo) :
    Bool × BasicVolumeManager :=
  (true, { m with original_volume := (contact_data.stop - contact_data.start) * m.rate })

/-- The `evl::EVLManager = generate_basic_volume_manager!(EVLManager, false, true)`. -/
def EVLManager.dry_run_tx (m : BasicVolumeManager) (contact_data : ContactInfo)
    (at_time : Date) (bundle : Bundle) : Option ContactManagerTxData :=
  m.dry_run_tx false contact_data at_time bundle

/-- The `EVLManager::schedule_tx` (auto-update on). -/
def EVLManager.schedule_tx (m : BasicVolumeManager) (contact_data : ContactInfo)
    (at_time : Date) (bundle : Bundle) : Option (ContactManagerTxData × BasicVolumeManager) :=
  m.schedule_tx false true contact_data at_time bundle

/-- Modelled from the spec: the repository's `contact_manager/qd.rs` is not in
the sources provided; per the spec, QD is the macro instance with queue delay
and automatic updates, i.e. `generate_basic_volume_manager!(QDManager, true, true)`. -/
def QDManager.dry_run_tx (m : BasicVolumeManager) (contact_data : ContactInfo)
    (at_time : Date) (bundle : Bundle) : Option ContactManagerTxData :=
  m.dry_run_tx true contact_data at_time bundle

/-- Modelled from the spec: `QDManager::schedule_tx` (auto-update on), see
`QDManager.dry_run_tx`. -/
def QDManager.schedule_tx (m : BasicVolumeManager) (contact_data : ContactInfo)
    (at_time : Date) (bundle : Bundle) : Option (ContactManagerTxData × BasicVolumeManager) :=
  m.schedule_tx true true contact_data at_time bundle

/-- A 3-element volume array (`[Volume; 3]`). -/
structure Vol3 where
  v0 : Volume
  v1 : Volume
  v2 : Volume
  deriving DecidableEq, Repr

/-- Indexed read; out-of-range reads default to `0`
(mirrors `vols.get(p).unwrap_or(&0.0)`). -/
def Vol3.get (v : Vol3) : Nat → Volume
  | 0 => v.v0
  | 1 => v.v1
  | 2 => v.v2
  | _ + 3 => 0

/-- Indexed write; out-of-range writes are dropped. -/
def Vol3.set (v : Vol3) (i : Nat) (x : Volume) : Vol3 :=
  match i with
  | 0 => { v with v0 := x }
  | 1 => { v with v1 := x }
  | 2 => { v with v2 := x }
  | _ + 3 => v

/-- State of a manager generated by
`generate_basic_volume_manager_with_priority!` (fields `rate`, `delay`,
`queue_size : [Volume; 3]`, `original_volume`, `mav : [Volume; 3]`). -/
structure PrioVolumeManager where
  rate : DataRate
  delay : Duration
  queue_size : Vol3
  original_volume : Volume
  mav : Vol3
  deriving DecidableEq, Repr

/-- The `$manager_name::new(rate, delay, original_mav)` from the priority macro. -/
def PrioVolumeManager.new (rate : DataRate) (delay : Duration) (original_mav : Vol3) :
    PrioVolumeManager :=
  { rate := rate, delay := delay, queue_size := ⟨0, 0, 0⟩, original_volume := 0,
    mav := original_mav }

/-- The `get_vol` from the priority macro (src/contact_manager/mod.rs, lines 528-534). -/
def PrioVolumeManager.get_vol (vols : Vol3) (priority : Priority) : Volume :=
  vols.get priority

/-- The inner `for j in 0..i { self.mav[j] = 0.0 }` of `update_mav`:
zero every band strictly below `i`. -/
def Vol3.zeroBelow (v : Vol3) : Nat → Vol3
  | 0 => v
  | i + 1 => (v.zeroBelow i).set i 0

/-- The `for i in (0..p).rev()` loop of `update_mav`: the argument is the
number of bands left to scan, so the next band visited is `i`.  While
`mav[i] > vol` the band is reduced by `vol`; at the first band with
`mav[i] <= vol` all strictly lower bands are zeroed and the loop breaks,
leaving band `i` itself untouched. -/
def updateMavLoop (mav : Vol3) (vol : Volume) : Nat → Vol3
  | 0 => mav
  | i + 1 =>
      if mav.get i > vol then
        updateMavLoop (mav.set i (mav.get i - vol)) vol i
      else
        mav.zeroBelow i

/-- The `update_mav` from the priority macro (src/contact_manager/mod.rs,
lines 538-553). -/
def PrioVolumeManager.update_mav (m : PrioVolumeManager) (vol : Volume)
    (priority : Priority) : PrioVolumeManager :=
  if priority < 3 then { m with mav := updateMavLoop m.mav vol priority } else m

/-- The `total_queue_size`: sum of `queue_size[i]` for `i` in `[p, 3)`. -/
def PrioVolumeManager.total_queue_size (m : PrioVolumeManager) (p : Priority) : Volume :=
  (if p ≤ 0 then m.queue_size.v0 else 0) +
  (if p ≤ 1 then m.queue_size.v1 else 0) +
  (if p ≤ 2 then m.queue_size.v2 else 0)

/-- The `dry_run_tx` from `generate_basic_volume_manager_with_priority!`
(src/contact_manager/mod.rs, lines 572-625). -/
def PrioVolumeManager.dry_run_tx (add_delay auto_update : Bool) (m : PrioVolumeManager)
    (contact_data : ContactInfo) (at_time : Date) (bundle : Bundle) :
    Option ContactManagerTxData :=
  let tx_start0 : Date := if contact_data.start > at_time then contact_data.start else at_time
  let tx_start : Date :=
    if add_delay then
      let total_queue_size := m.total_queue_size bundle.priority
      if !auto_update then
        tx_start0 + total_queue_size / m.rate
      else
        if contact_data.start > at_time then
          contact_data.start + total_queue_size / m.rate
        else
          contact_data.start
    else tx_start0
  let tx_end : Date := tx_start + bundle.size / m.rate
  if tx_end > contact_data.stop then
    none
  else
    let arrival : Date := m.delay + tx_end
    if arrival > bundle.expiration then
      none
    else
      let max_volume : Volume := (tx_end - tx_start) * m.rate
      if bundle.size > min max_volume (PrioVolumeManager.get_vol m.mav bundle.priority) then
        none
      else
        some { tx_start := tx_start, tx_end := tx_end, delay := m.delay,
               expiration := contact_data.stop, arrival := arrival }

/-- The `schedule_tx` from `generate_basic_volume_manager_with_priority!`
(src/contact_manager/mod.rs, lines 641-657): on dry-run success, calls
`update_mav` and, when `auto_update`, adds the size to `queue_size[p]`. -/
def PrioVolumeManager.schedule_tx (add_delay auto_update : Bool) (m : PrioVolumeManager)
    (contact_data : ContactInfo) (at_time : Date) (bundle : Bundle) :
    Option (ContactManagerTxData × PrioVolumeManager) :=
  match m.dry_run_tx add_delay auto_update contact_data at_time bundle with
  | some data =>
      let m1 := m.update_mav bundle.size bundle.priority
      let q := m1.queue_size.set bundle.priority (m1.queue_size.get bundle.priority + bundle.size)
      let m2 := if auto_update then { m1 with queue_size := q } else m1
      some (data, m2)
  | none => none

/-- The `peto::PETOManager = generate_basic_volume_manager_with_priority!(PETOManager, true, false)`. -/
def PETOManager.dry_run_tx (m : PrioVolumeManager) (contact_data : ContactInfo)
    (at_time : Date) (bundle : Bundle) : Option ContactManagerTxData :=
  m.dry_run_tx true false contact_data at_time bundle

/-- The `PETOManager::schedule_tx`. -/
def PETOManager.schedule_tx (m : PrioVolumeManager) (contact_data : ContactInfo)
    (at_time : Date) (bundle : Bundle) : Option (ContactManagerTxData × PrioVolumeManager) :=
  m.schedule_tx true false contact_data at_time bundle

/-- The `pqd::PQDManager = generate_basic_volume_manager_with_priority!(PQDManager, true, true)`. -/
def PQDManager.dry_run_tx (m : PrioVolumeManager) (contact_data : ContactInfo)
    (at_time : Date) (bundle : Bundle) : Option ContactManagerTxData :=
  m.dry_run_tx true true contact_data at_time bundle

/-- The `PQDManager::schedule_tx`. -/
def PQDManager.schedule_tx (m : PrioVolumeManager) (contact_data : ContactInfo)
    (at_time : Date) (bundle : Bundle) : Option (ContactManagerTxData × PrioVolumeManager) :=
  m.schedule_tx true true contact_data at_time bundle

/-- Modelled from the spec: the repository's `contact_manager/pevl.rs` is not
in the sources provided; per the spec, PEVL is the priority macro instance
without queue delay and with automatic updates, i.e.
`generate_basic_volume_manager_with_priority!(PEVLManager, false, true)`. -/
def PEVLManager.dry_run_tx (m : PrioVolumeManager) (contact_data : ContactInfo)
    (at_time : Date) (bundle : Bundle) : Option ContactManagerTxData :=
  m.dry_run_tx false true contact_data at_time bundle

/-- Modelled from the spec: `PEVLManager::schedule_tx`, see `PEVLManager.dry_run_tx`. -/
def PEVLManager.schedule_tx (m : PrioVolumeManager) (contact_data : ContactInfo)
    (at_time : Date) (bundle : Bundle) : Option (ContactManagerTxData × PrioVolumeManager) :=
  m.schedule_tx false true contact_data at_time bundle

/-- The `segmentation::Segment<T>`: a time interval carrying a value.  The Rust
field `end` is embedded as `stop`. -/
structure Segment (T : Type) where
  start : Date
  stop : Date
  val : T
  deriving DecidableEq, Repr

/-- Stand-in for `Duration::MAX` (`f64::MAX`), returned by `get_delay` when no
delay interval covers `tx_end`. -/
def duration_max : Duration := (2 : Rat) ^ 1024

/-- The `segmentation::get_delay`: first delay segment whose end is not before
`tx_end`, else `Duration::MAX`. -/
def get_delay (tx_end : Date) : List (Segment Duration) → Duration
  | [] => duration_max
  | delay_seg :: rest => if tx_end > delay_seg.stop then get_delay tx_end rest else delay_seg.val

/-- The `segmentation::get_tx_end`: walk the rate segments from `at_time`,
consuming `volume`, failing when the `deadline` would be exceeded or volume
remains after the last segment. -/
def get_tx_end (rate_intervals : List (Segment DataRate)) (at_time : Date)
    (volume : Volume) (deadline : Date) : Option Date :=
  match rate_intervals with
  | [] => none
  | rate_seg :: rest =>
      if rate_seg.stop < at_time then
        get_tx_end rest at_time volume deadline
      else
        let tx_end := at_time + volume / rate_seg.val
        if tx_end > deadline then
          none
        else if tx_end > rate_seg.stop then
          get_tx_end rest rate_seg.stop (volume - rate_seg.val * (rate_seg.stop - at_time)) deadline
        else
          some tx_end

/-- The `seg::SegmentationManager` state. -/
structure SegmentationManager where
  free_intervals : List (Segment Unit)
  rate_intervals : List (Segment DataRate)
  delay_intervals : List (Segment Duration)
  deriving DecidableEq, Repr

/-- Chain check used by `segmentation::try_init`: each segment must start
where the previous one ended; returns the running end on success. -/
def segChainEnd {T : Type} (time : Date) : List (Segment T) → Option Date
  | [] => some time
  | seg :: rest => if seg.start = time then segChainEnd seg.stop rest else none

/-- The `segmentation::try_init` gap check for one interval list: non-empty,
contiguous from `info.start`, and ending exactly at `info.stop`. -/
def segCovers {T : Type} (info : ContactInfo) (l : List (Segment T)) : Bool :=
  !l.isEmpty && segChainEnd info.start l == some info.stop

/-- The `segmentation::try_init` (src/contact_manager/segmentation/mod.rs,
lines 50-116): rate and delay intervals must cover the contact without gaps
and the free-interval list must be empty; on success one free interval
spanning the whole contact is installed. -/
def SegmentationManager.try_init (m : SegmentationManager) (info : ContactInfo) :
    Bool × SegmentationManager :=
  if segCovers info m.rate_intervals && segCovers info m.delay_intervals
      && m.free_intervals.isEmpty then
    (true, { m with free_intervals := [{ start := info.start, stop := info.stop, val := () }] })
  else
    (false, m)

/-- The `for free_seg in &self.free_intervals` loop of
`SegmentationManager::dry_run_tx`. -/
def segDryLoop (rates : List (Segment DataRate)) (delays : List (Segment Duration))
    (at_time : Date) (bundle : Bundle) : List (Segment Unit) → Option ContactManagerTxData
  | [] => none
  | free_seg :: rest =>
      if free_seg.stop < at_time then
        segDryLoop rates delays at_time bundle rest
      else
        let tx_start := max free_seg.start at_time
        match get_tx_end rates tx_start bundle.size free_seg.stop with
        | none => segDryLoop rates delays at_time bundle rest
        | some tx_end =>
            let delay := get_delay tx_end delays
            some { tx_start := tx_start, tx_end := tx_end, delay := delay,
                   expiration := free_seg.stop, arrival := tx_end + delay }

/-- The `SegmentationManager::dry_run_tx` (src/contact_manager/segmentation/seg.rs,
lines 91-120): first free interval not entirely before `at_time` on which the
whole volume fits before the interval's end. -/
def SegmentationManager.dry_run_tx (m : SegmentationManager) (_contact_data : ContactInfo)
    (at_time : Date) (bundle : Bundle) : Option ContactManagerTxData :=
  segDryLoop m.rate_intervals m.delay_intervals at_time bundle m.free_intervals

/-- The scanning loop of `SegmentationManager::schedule_tx`
(src/contact_manager/segmentation/seg.rs, lines 141-157), with its mutable
`tx_start`, `tx_end` and `index` threaded through.  Note: the `continue`
taken when `free_seg.end < at_time` skips the `index += 1`, so `index` does
not count skipped intervals. -/
def segScheduleScan (rates : List (Segment DataRate)) (size : Volume) (at_time : Date) :
    List (Segment Unit) → Date → Date → Nat → Date × Date × Nat
  | [], tx_start, tx_end, index => (tx_start, tx_end, index)
  | free_seg :: rest, tx_start, tx_end, index =>
      if free_seg.stop < at_time then
        segScheduleScan rates size at_time rest tx_start tx_end index
      else
        let ts := max free_seg.start at_time
        match get_tx_end rates ts size free_seg.stop with
        | some tx_end_res => (ts, tx_end_res, index)
        | none => segScheduleScan rates size at_time rest ts tx_end (index + 1)

/-- The `SegmentationManager::schedule_tx` (src/contact_manager/segmentation/seg.rs,
lines 135-184): rescans the free intervals, then splits
`free_intervals[index]` around `[tx_start, tx_end]`.  The Rust indexing
`self.free_intervals[index]` panics when out of bounds; that is embedded as
`Except.error`. -/
def SegmentationManager.schedule_tx (m : SegmentationManager) (_contact_data : ContactInfo)
    (at_time : Date) (bundle : Bundle) :
    Except String (ContactManagerTxData × SegmentationManager) :=
  let scan := segScheduleScan m.rate_intervals bundle.size at_time m.free_intervals 0 0 0
  let tx_start := scan.1
  let tx_end := scan.2.1
  let index := scan.2.2
  match m.free_intervals.get? index with
  | none => .error "index out of bounds"
  | some interval =>
      let expiration := interval.stop
      let delay := get_delay tx_end m.delay_intervals
      let free' :=
        if interval.start ≠ tx_start then
          (m.free_intervals.set index { interval with stop := tx_start }).insertIdx (index + 1)
            { start := tx_end, stop := expiration, val := () }
        else
          m.free_intervals.set index { interval with start := tx_end }
      .ok ({ tx_start := tx_start, tx_end := tx_end, delay := delay,
             expiration := expiration, arrival := tx_end + delay },
           { m with free_intervals := free' })

/-- The `pseg::PSegmentationManager` state: `booking` carries the highest booked
priority per segment (`-1` = unbooked, hence `Int`-valued). -/
structure PSegmentationManager where
  booking : List (Segment Int)
  rate_intervals : List (Segment DataRate)
  delay_intervals : List (Segment Duration)
  deriving DecidableEq, Repr

/-- The `for seg in &self.booking` loop of `PSegmentationManager::dry_run_tx`
(src/contact_manager/segmentation/pseg.rs, lines 60-106), with the mutable
`tx_start` and `tx_end_opt` threaded through. -/
def psegDryLoop (rates : List (Segment DataRate)) (delays : List (Segment Duration))
    (contact_stop : Date) (at_time : Date) (bundle : Bundle) :
    List (Segment Int) → Date → Option Date → Option ContactManagerTxData
  | [], _, _ => none
  | seg :: rest, tx_start, tx_end_opt =>
      if seg.stop ≤ at_time then
        psegDryLoop rates delays contact_stop at_time bundle rest tx_start tx_end_opt
      else if (bundle.priority : Int) ≤ seg.val then
        psegDryLoop rates delays contact_stop at_time bundle rest tx_start none
      else
        match tx_end_opt with
        | some tx_end =>
            if tx_end < seg.stop then
              let delay := get_delay tx_end delays
              some { tx_start := tx_start, tx_end := tx_end, delay := delay,
                     expiration := seg.stop, arrival := tx_end + delay }
            else
              psegDryLoop rates delays contact_stop at_time bundle rest tx_start tx_end_opt
        | none =>
            let ts := max seg.start at_time
            match get_tx_end rates ts bundle.size contact_stop with
            | some te => psegDryLoop rates delays contact_stop at_time bundle rest ts (some te)
            | none => psegDryLoop rates delays contact_stop at_time bundle rest ts none

/-- The `PSegmentationManager::dry_run_tx`. -/
def PSegmentationManager.dry_run_tx (m : PSegmentationManager) (contact_data : ContactInfo)
    (at_time : Date) (bundle : Bundle) : Option ContactManagerTxData :=
  psegDryLoop m.rate_intervals m.delay_intervals contact_data.stop at_time bundle
    m.booking at_time none

/-- The `route_storage::Guard` state; the `HashMap` is embedded as an association
list (first match wins, insertion replaces the matching key). -/
structure Guard where
  with_priorities : Bool
  known_limits : List ((NodeID × Priority) × Volume)
  deriving DecidableEq, Repr

/-- The `HashMap::get`. -/
def alGet (l : List ((NodeID × Priority) × Volume)) (k : NodeID × Priority) : Option Volume :=
  match l with
  | [] => none
  | (k', v) :: rest => if k' = k then some v else alGet rest k

/-- The `HashMap::insert` (replaces the value of an existing key). -/
def alInsert (l : List ((NodeID × Priority) × Volume)) (k : NodeID × Priority) (v : Volume) :
    List ((NodeID × Priority) × Volume) :=
  match l with
  | [] => [(k, v)]
  | (k', v') :: rest => if k' = k then (k, v) :: rest else (k', v') :: alInsert rest k v

/-- The `Guard::new`. -/
def Guard.new (with_priorities : Bool) : Guard :=
  { with_priorities := with_priorities, known_limits := [] }

/-- Effective priority used by the guard: the bundle's priority when
priorities are enabled, else 0. -/
def Guard.effPriority (g : Guard) (bundle : Bundle) : Priority :=
  if g.with_priorities then bundle.priority else 0

/-- The `Guard::must_abort` (src/route_storage/mod.rs, lines 152-168). -/
def Guard.must_abort (g : Guard) (bundle : Bundle) : Bool :=
  let priority := g.effPriority bundle
  let unreachable_count := bundle.destinations.countP (fun dest =>
    match alGet g.known_limits (dest, priority) with
    | some limit => bundle.size < limit
    | none => false)
  unreachable_count == bundle.destinations.length

/-- The `Guard::add_limit` (src/route_storage/mod.rs, lines 179-191): record
`bundle.size` for `(dest, priority)` unless an existing record is already at
most `bundle.size`. -/
def Guard.add_limit (g : Guard) (bundle : Bundle) (dest : NodeID) : Guard :=
  let priority := g.effPriority bundle
  match alGet g.known_limits (dest, priority) with
  | some val =>
      if val ≤ bundle.size then g
      else { g with known_limits := alInsert g.known_limits (dest, priority) bundle.size }
  | none => { g with known_limits := alInsert g.known_limits (dest, priority) bundle.size }

/-- Operations of the `ContactManager` trait, over a manager state type `CM`
(mutating methods return the updated state). -/
structure CMImpl (CM : Type) where
  dry_run_tx : CM → ContactInfo → Date → Bundle → Option ContactManagerTxData
  schedule_tx : CM → ContactInfo → Date → Bundle → Option (ContactManagerTxData × CM)

/-- The EVL instantiation of the trait (auto-update, no queue delay). -/
def evlImpl : CMImpl BasicVolumeManager :=
  { dry_run_tx := EVLManager.dry_run_tx, schedule_tx := EVLManager.schedule_tx }

/-- The `route_stage::RouteStage`.  The `Rc<RefCell<..>>` heap is embedded as an
arena: stages are looked up by index, and `via` stores
`(contact index, parent stage index)` — index equality plays the role of the
pointer identity the Rust code uses for deduplication. -/
structure RouteStage where
  to_node : NodeID
  at_time : Date
  hop_count : Nat
  expiration : Date
  via : Option (Nat × Nat)
  next_for_destination : List (NodeID × Nat)
  deriving DecidableEq, Repr

/-- The `pathfinding::PathFindingOutput`, together with the arena of its stages. -/
structure PathFindingOutput where
  bundle : Bundle
  source_route : Nat
  excluded_nodes_sorted : List NodeID
  by_destination : List (Option Nat)
  stages : List RouteStage
  deriving DecidableEq, Repr

/-- A contact arena: `Rc<RefCell<Contact>>` becomes index-based access into a
list of `(info, manager)` pairs. -/
abbrev Contacts (CM : Type) := List (ContactInfo × CM)

/-- The `RoutingOutput.first_hops`: first-hop contact index mapped to the stage /
destination indices served through it. -/
abbrev FirstHops := List (Nat × List Nat)

/-- Insert `dest` into the group of key `idx`, appending a new group when the
key is unseen (models the `HashMap` grouping keyed by `Rc` pointer). -/
def addToGroups (groups : List (Nat × List NodeID)) (idx : Nat) (dest : NodeID) :
    List (Nat × List NodeID) :=
  match groups with
  | [] => [(idx, [dest])]
  | (i, ds) :: rest =>
      if i = idx then (i, ds ++ [dest]) :: rest else (i, ds) :: addToGroups rest idx dest

/-- Assoc-list update used for `next_for_destination` insertion. -/
def setNextFor (l : List (NodeID × Nat)) (dest : NodeID) (idx : Nat) : List (NodeID × Nat) :=
  match l with
  | [] => [(dest, idx)]
  | (d, i) :: rest => if d = dest then (dest, idx) :: rest else (d, i) :: setNextFor rest dest idx

/-- Assoc-list lookup for `next_for_destination`. -/
def getNextFor (l : List (NodeID × Nat)) (dest : NodeID) : Option Nat :=
  match l with
  | [] => none
  | (d, i) :: rest => if d = dest then some i else getNextFor rest dest

/-- Modelled from the spec: `route_stage.rs` is not in the sources provided.
`RouteStage::init_route` (spec section 4.3) walks the `via` back-pointers from
the destination stage to the source, setting
`parent.next_for_destination[dest] := child` on each edge.  Fuel-bounded
(the Rust walk terminates because the stage DAG is time-ordered). -/
def init_route (stages : List RouteStage) (dest : NodeID) : Nat → Nat → List RouteStage
  | _, 0 => stages
  | childIdx, fuel + 1 =>
      match stages.get? childIdx with
      | none => stages
      | some child =>
          match child.via with
          | none => stages
          | some (_, parentIdx) =>
              match stages.get? parentIdx with
              | none => stages
              | some parent =>
                  let parent' :=
                    { parent with next_for_destination :=
                        setNextFor parent.next_for_destination dest childIdx }
                  init_route (stages.set parentIdx parent') dest parentIdx fuel

/-- Modelled from the spec: `route_stage.rs` is not in the sources provided.
`RouteStage::dry_run` runs the via contact's manager `dry_run_tx`; on success
the stage's `at_time` becomes the transmission's arrival (spec section 3:
`at_time` is the arrival time at this stage).  Returns the new `at_time`. -/
def stageDryRun {CM : Type} (impl : CMImpl CM) (contacts : Contacts CM)
    (stage : RouteStage) (at_time : Date) (bundle : Bundle) : Option Date :=
  match stage.via with
  | none => none
  | some (contactIdx, _) =>
      match contacts.get? contactIdx with
      | none => none
      | some (info, m) => (impl.dry_run_tx m info at_time bundle).map (fun d => d.arrival)

/-- Modelled from the spec: `route_stage.rs` is not in the sources provided.
`RouteStage::schedule` runs the via contact's manager `schedule_tx`,
committing the manager mutation; returns the new `at_time` and contacts. -/
def stageSchedule {CM : Type} (impl : CMImpl CM) (contacts : Contacts CM)
    (stage : RouteStage) (at_time : Date) (bundle : Bundle) : Option (Date × Contacts CM) :=
  match stage.via with
  | none => none
  | some (contactIdx, _) =>
      match contacts.get? contactIdx with
      | none => none
      | some (info, m) =>
          match impl.schedule_tx m info at_time bundle with
          | none => none
          | some (data, m') => some (data.arrival, contacts.set contactIdx (info, m'))

/-- The `routing::rec_dry_run_multicast` (src/routing/mod.rs, lines 174-221),
fuel-bounded: on a non-source stage run the stage dry run (abandoning the
subtree on failure), record the destinations reached at this node, group the
remaining destinations by next stage (pointer identity = index), recurse. -/
def rec_dry_run_multicast {CM : Type} (impl : CMImpl CM) (contacts : Contacts CM)
    (stages : List RouteStage) (bundle : Bundle) :
    Nat → Date → List NodeID → Nat → Bool → List NodeID
  | 0, _, _, _, _ => []
  | fuel + 1, at_time, reachable_in_tree, idx, is_source =>
      match stages.get? idx with
      | none => []
      | some route =>
          let step : Option Date :=
            if is_source then some at_time
            else stageDryRun impl contacts route at_time bundle
          match step with
          | none => []
          | some at_time' =>
              let reached_here := reachable_in_tree.filter (fun d => route.to_node = d)
              let groups := (reachable_in_tree.filter (fun d => route.to_node ≠ d)).foldl
                (fun gs d =>
                  match getNextFor route.next_for_destination d with
                  | some nidx => addToGroups gs nidx d
                  | none => gs) []
              reached_here ++ groups.flatMap (fun g =>
                rec_dry_run_multicast impl contacts stages bundle fuel at_time' g.2 g.1 false)

/-- The `routing::dry_run_multicast` (src/routing/mod.rs, lines 131-158): collect
the bundle destinations present in the tree (initializing their forward
routes), then recursively dry-run from the source.  Returns the in-tree
reachable destinations, the destinations actually reached by the dry run, and
the tree with its `next_for_destination` maps populated. -/
def dry_run_multicast {CM : Type} (impl : CMImpl CM) (contacts : Contacts CM)
    (bundle : Bundle) (at_time : Date) (tree : PathFindingOutput) :
    List NodeID × List NodeID × PathFindingOutput :=
  let fuel := tree.stages.length + 1
  let step := bundle.destinations.foldl
    (fun (acc : List RouteStage × List NodeID) dest =>
      match tree.by_destination.getD dest none with
      | some destIdx => (init_route acc.1 dest destIdx fuel, acc.2 ++ [dest])
      | none => acc) (tree.stages, [])
  let stages' := step.1
  let reachable_destinations := step.2
  let reached := rec_dry_run_multicast impl contacts stages' bundle fuel at_time
    reachable_destinations tree.source_route true
  (reachable_destinations, reached, { tree with stages := stages' })

/-- The `routing::rec_update_multicast` (src/routing/mod.rs, lines 233-279),
fuel-bounded: like the dry run but calling `schedule` (committing manager
mutations), abandoning a subtree when a schedule fails. -/
def rec_update_multicast {CM : Type} (impl : CMImpl CM) (stages : List RouteStage)
    (bundle : Bundle) :
    Nat → Contacts CM → Date → List NodeID → Nat → Bool → Contacts CM
  | 0, contacts, _, _, _, _ => contacts
  | fuel + 1, contacts, at_time, reachable_after_dry_run, idx, is_source =>
      match stages.get? idx with
      | none => contacts
      | some route =>
          let step : Option (Date × Contacts CM) :=
            if is_source then some (at_time, contacts)
            else stageSchedule impl contacts route at_time bundle
          match step with
          | none => contacts
          | some (at_time', contacts') =>
              let groups := (reachable_after_dry_run.filter (fun d => route.to_node ≠ d)).foldl
                (fun gs d =>
                  match getNextFor route.next_for_destination d with
                  | some nidx => addToGroups gs nidx d
                  | none => gs) []
              groups.foldl (fun cs g =>
                rec_update_multicast impl stages bundle fuel cs at_time' g.2 g.1 false) contacts'

/-- The grouping loop of `routing::build_multicast_output`
(src/routing/mod.rs, lines 87-100): group the reached destinations of the
source stage's forward map by first-hop contact, panicking
(`Except.error`) on a reached stage with no `via`. -/
def buildFirstHopsLoop (stages : List RouteStage) (reached_nodes : List NodeID) :
    List (NodeID × Nat) → FirstHops → Except String FirstHops
  | [], acc => .ok acc
  | (dest, ridx) :: rest, acc =>
      if reached_nodes.contains dest then
        match (stages.get? ridx).bind (fun r => r.via) with
        | some (contactIdx, _) =>
            buildFirstHopsLoop stages reached_nodes rest (addToGroups acc contactIdx dest)
        | none => .error "Malformed route, no via contact or route"
      else
        buildFirstHopsLoop stages reached_nodes rest acc

/-- The `routing::build_multicast_output` (src/routing/mod.rs, lines 80-104): the
grouping loop runs, but the function body ends in `todo!()` — the
`RoutingOutput { first_hops }` return is commented out — so it never returns
normally. -/
def build_multicast_output (stages : List RouteStage) (source_route : Nat)
    (reached_nodes : List NodeID) : Except String FirstHops :=
  match stages.get? source_route with
  | none => .error "source stage missing"
  | some src =>
      match buildFirstHopsLoop stages reached_nodes src.next_for_destination [] with
      | .error e => .error e
      | .ok _first_hops => .error "not implemented"

/-- The `routing::schedule_multicast` (src/routing/mod.rs, lines 298-314). -/
def schedule_multicast {CM : Type} (impl : CMImpl CM) (contacts : Contacts CM)
    (bundle : Bundle) (curr_time : Date) (tree : PathFindingOutput)
    (targets : List NodeID) (dry_run_to_fill_targets : Bool) :
    Except String (FirstHops × Contacts CM) :=
  let filled :=
    if dry_run_to_fill_targets then
      let r := dry_run_multicast impl contacts bundle curr_time tree
      (r.2.1, r.2.2)
    else (targets, tree)
  let targets' := filled.1
  let tree' := filled.2
  let fuel := tree'.stages.length + 1
  let contacts' := rec_update_multicast impl tree'.stages bundle fuel contacts curr_time
    targets' tree'.source_route true
  match build_multicast_output tree'.stages tree'.source_route targets' with
  | .error e => .error e
  | .ok fh => .ok (fh, contacts')

/-- Modelled from the spec: `bundle.rs` is not in the sources provided.  Per
spec section 4.6, with a check flag enabled a cached entry is skipped when the
cached bundle fails to shadow (be at least as demanding as) the request;
this is the skip predicate used at src/route_storage/cache.rs line 91. -/
def shadowsSkips (cached req : Bundle) (check_size check_priority : Bool) : Bool :=
  (check_size && decide (cached.size < req.size)) ||
  (check_priority && decide (cached.priority < req.priority))

/-- The `routing::dry_run_unicast_path` walk (the `while let` of the macro at
src/routing/mod.rs, lines 363-390), fuel-bounded: follow
`next_for_destination[dest]` from the source, dry-running each stage, until
the destination stage is returned. -/
def dryRunUnicastWalk {CM : Type} (impl : CMImpl CM) (contacts : Contacts CM)
    (stages : List RouteStage) (bundle : Bundle) (dest : NodeID) :
    Nat → Date → Option Nat → Option Nat
  | 0, _, _ => none
  | _, _, none => none
  | fuel + 1, at_time, some idx =>
      match stages.get? idx with
      | none => none
      | some curr =>
          match stageDryRun impl contacts curr at_time bundle with
          | none => none
          | some at_time' =>
              if curr.to_node = dest then some idx
              else dryRunUnicastWalk impl contacts stages bundle dest fuel at_time'
                (getNextFor curr.next_for_destination dest)

/-- The `routing::dry_run_unicast_path` (macro variant with `try_init = true`):
initialize the destination route, then walk from the source.  Returns the
found destination stage index and the tree stages after initialization. -/
def dry_run_unicast_path {CM : Type} (impl : CMImpl CM) (contacts : Contacts CM)
    (stages : List RouteStage) (bundle : Bundle) (at_time : Date)
    (sourceIdx destIdx : Nat) : Option Nat × List RouteStage :=
  let fuel := stages.length + 1
  let dest := bundle.destinations.headD 0
  let stages' := init_route stages dest destIdx fuel
  match stages'.get? sourceIdx with
  | none => (none, stages')
  | some src =>
      (dryRunUnicastWalk impl contacts stages' bundle dest fuel at_time
        (getNextFor src.next_for_destination dest), stages')

/-- The `routing::dry_run_unicast_path_with_exclusions` (macro variant with
`try_init = false`): the same walk without initializing the route. -/
def dry_run_unicast_path_with_exclusions {CM : Type} (impl : CMImpl CM)
    (contacts : Contacts CM) (stages : List RouteStage) (bundle : Bundle)
    (at_time : Date) (sourceIdx : Nat) : Option Nat :=
  let fuel := stages.length + 1
  let dest := bundle.destinations.headD 0
  match stages.get? sourceIdx with
  | none => none
  | some src =>
      dryRunUnicastWalk impl contacts stages bundle dest fuel at_time
        (getNextFor src.next_for_destination dest)

/-- The `routing::dry_run_unicast_tree` (src/routing/mod.rs, lines 415-430):
fails when the destination is absent from the tree, else runs
`dry_run_unicast_path` from the tree's source.  Returns the found stage and
the (initialization-mutated) tree. -/
def dry_run_unicast_tree {CM : Type} (impl : CMImpl CM) (contacts : Contacts CM)
    (bundle : Bundle) (at_time : Date) (tree : PathFindingOutput) :
    Option Nat × PathFindingOutput :=
  let dest := bundle.destinations.headD 0
  match tree.by_destination.getD dest none with
  | none => (none, tree)
  | some destIdx =>
      let r := dry_run_unicast_path impl contacts tree.stages bundle at_time
        tree.source_route destIdx
      (r.1, { tree with stages := r.2 })

/-- The `route_storage::cache::TreeCache` state. -/
structure TreeCache where
  check_size : Bool
  check_priority : Bool
  max_entries : Nat
  trees : List PathFindingOutput
  deriving DecidableEq, Repr

/-- The `for tree in &self.trees` loop of `TreeCache::select`
(src/route_storage/cache.rs, lines 87-118): skip on shadowing or on an
excluded-set mismatch; for unicast, return the tree only when the dry-run
replay succeeds (else keep scanning); for multicast, return the tree with the
in-tree reachable destinations — the replay outcome is not consulted. -/
def treeCacheSelectLoop {CM : Type} (impl : CMImpl CM) (contacts : Contacts CM)
    (check_size check_priority : Bool) (bundle : Bundle) (curr_time : Date)
    (excluded_nodes_sorted : List NodeID) :
    List PathFindingOutput → Option PathFindingOutput × Option (List NodeID)
  | [] => (none, none)
  | tree :: rest =>
      if shadowsSkips tree.bundle bundle check_size check_priority then
        treeCacheSelectLoop impl contacts check_size check_priority bundle curr_time
          excluded_nodes_sorted rest
      else if tree.excluded_nodes_sorted ≠ excluded_nodes_sorted then
        treeCacheSelectLoop impl contacts check_size check_priority bundle curr_time
          excluded_nodes_sorted rest
      else
        if bundle.destinations.length > 1 then
          let r := dry_run_multicast impl contacts bundle curr_time tree
          (some r.2.2, some r.1)
        else
          match dry_run_unicast_tree impl contacts bundle curr_time tree with
          | (some _, tree') => (some tree', none)
          | (none, _) =>
              treeCacheSelectLoop impl contacts check_size check_priority bundle curr_time
                excluded_nodes_sorted rest

/-- The `TreeCache::select` (src/route_storage/cache.rs, lines 76-120). -/
def TreeCache.select {CM : Type} (c : TreeCache) (impl : CMImpl CM) (contacts : Contacts CM)
    (bundle : Bundle) (curr_time : Date) (excluded_nodes_sorted : List NodeID) :
    Option PathFindingOutput × Option (List NodeID) :=
  treeCacheSelectLoop impl contacts c.check_size c.check_priority bundle curr_time
    excluded_nodes_sorted c.trees

/-- The `TreeCache::store` (src/route_storage/cache.rs, lines 129-147): replace
the entry with the same excluded set, else append; then drop the oldest entry
on overflow. -/
def TreeCache.store (c : TreeCache) (new_tree : PathFindingOutput) : TreeCache :=
  let replaced := c.trees.findIdx? (fun t =>
    t.excluded_nodes_sorted = new_tree.excluded_nodes_sorted)
  let trees' :=
    match replaced with
    | some i => c.trees.set i new_tree
    | none => c.trees ++ [new_tree]
  let trees'' := if trees'.length > c.max_entries then trees'.drop 1 else trees'
  { c with trees := trees'' }

/-- The `while let Some(curr_route)` loop of `routing::update_unicast`
(src/routing/mod.rs, lines 454-488), fuel-bounded.  Rust panics
(`Except.error`) on a failed schedule, on running off the route, and on a
missing first hop. -/
def updateUnicastWalk {CM : Type} (impl : CMImpl CM) (stages : List RouteStage)
    (bundle : Bundle) (dest : NodeID) :
    Nat → Contacts CM → Date → Option Nat → Option Nat →
    Except String (FirstHops × Contacts CM)
  | 0, _, _, _, _ => .error "fuel exhausted"
  | _ + 1, _, _, none, _ => .error "Faulty dry run, no clean update"
  | fuel + 1, contacts, at_time, some idx, first_hop =>
      match stages.get? idx with
      | none => .error "stage missing"
      | some curr =>
          let first_hop' :=
            if first_hop.isNone then curr.via.map (fun v => v.1) else first_hop
          match stageSchedule impl contacts curr at_time bundle with
          | none => .error "Faulty dry run, no clean update"
          | some (at_time', contacts') =>
              if curr.to_node = dest then
                match first_hop' with
                | some c => .ok ([(c, [idx])], contacts')
                | none => .error "First hop tracking issue"
              else
                updateUnicastWalk impl stages bundle dest fuel contacts' at_time'
                  (getNextFor curr.next_for_destination dest) first_hop'

/-- The `routing::update_unicast` (src/routing/mod.rs, lines 440-491). -/
def update_unicast {CM : Type} (impl : CMImpl CM) (contacts : Contacts CM)
    (stages : List RouteStage) (bundle : Bundle) (dest : NodeID) (at_time : Date)
    (sourceIdx : Nat) : Except String (FirstHops × Contacts CM) :=
  match stages.get? sourceIdx with
  | none => .error "source stage missing"
  | some src =>
      updateUnicastWalk impl stages bundle dest (stages.length + 1) contacts at_time
        (getNextFor src.next_for_destination dest) none

/-- The `routing::schedule_unicast` (src/routing/mod.rs, lines 512-525):
optionally initialize the tree for the destination, then commit along the
route. -/
def schedule_unicast {CM : Type} (impl : CMImpl CM) (contacts : Contacts CM)
    (bundle : Bundle) (curr_time : Date) (tree : PathFindingOutput) (init_tree : Bool) :
    Except String (FirstHops × Contacts CM) :=
  let dest := bundle.destinations.headD 0
  let stages :=
    if init_tree then
      match tree.by_destination.getD dest none with
      | some destIdx => init_route tree.stages dest destIdx (tree.stages.length + 1)
      | none => tree.stages
    else tree.stages
  update_unicast impl contacts stages bundle dest curr_time tree.source_route

/-- The `routing::schedule_unicast_path` (src/routing/mod.rs, lines 542-549). -/
def schedule_unicast_path {CM : Type} (impl : CMImpl CM) (contacts : Contacts CM)
    (stages : List RouteStage) (bundle : Bundle) (curr_time : Date) (sourceIdx : Nat) :
    Except String (FirstHops × Contacts CM) :=
  let dest := bundle.destinations.headD 0
  update_unicast impl contacts stages bundle dest curr_time sourceIdx

/-- The `Spsn::route_unicast` (src/routing/spsn.rs, lines 124-185), with the
storage fixed to a `TreeCache` and the pathfinding call abstracted by its
result `new_tree` (its inputs are all arguments of this function).  Returns
the routing result (`Except` models the Rust panics, `ok none` the `None`
returns), the updated guard and the updated cache. -/
def Spsn.route_unicast {CM : Type} (impl : CMImpl CM) (contacts : Contacts CM)
    (g : Guard) (cache : TreeCache) (bundle : Bundle) (curr_time : Date)
    (excluded_nodes : List NodeID) (new_tree : PathFindingOutput) :
    Except String (Option (FirstHops × Contacts CM)) × Guard × TreeCache :=
  if g.must_abort bundle then (.ok none, g, cache)
  else
    let dest := bundle.destinations.headD 0
    match cache.select impl contacts bundle curr_time excluded_nodes with
    | (some tree, _) =>
        ((schedule_unicast impl contacts bundle curr_time tree false).map some, g, cache)
    | (none, _) =>
        let cache' := cache.store new_tree
        match new_tree.by_destination.getD dest none with
        | some routeIdx =>
            match new_tree.stages.get? routeIdx with
            | none => (.error "stage missing", g, cache')
            | some route =>
                if route.at_time > bundle.expiration then (.ok none, g, cache')
                else
                  ((schedule_unicast impl contacts bundle curr_time new_tree true).map some,
                   g, cache')
        | none => (.ok none, g.add_limit bundle dest, cache')

/-- The `Spsn::route_multicast` (src/routing/spsn.rs, lines 203-244), with the
pathfinding call abstracted by its result `new_tree`. -/
def Spsn.route_multicast {CM : Type} (impl : CMImpl CM) (contacts : Contacts CM)
    (cache : TreeCache) (bundle : Bundle) (curr_time : Date)
    (excluded_nodes : List NodeID) (new_tree : PathFindingOutput) :
    Except String (FirstHops × Contacts CM) × TreeCache :=
  match cache.select impl contacts bundle curr_time excluded_nodes with
  | (some tree, some reachable_nodes) =>
      if bundle.destinations.length = reachable_nodes.length then
        (schedule_multicast impl contacts bundle curr_time tree reachable_nodes false, cache)
      else
        (schedule_multicast impl contacts bundle curr_time new_tree [] true,
         cache.store new_tree)
  | _ =>
      (schedule_multicast impl contacts bundle curr_time new_tree [] true,
       cache.store new_tree)

/-- The `Route::from_tree` (src/route_storage/mod.rs, lines 60-74): the source
stage and destination stage of a tree, absent when the tree has no route to
`dest`. -/
def Route.from_tree (tree : PathFindingOutput) (dest : NodeID) : Option (Nat × Nat) :=
  match tree.by_destination.getD dest none with
  | none => none
  | some destIdx => some (tree.source_route, destIdx)

/-- Lines 83-85 of `Cgr::route_unicast` (src/routing/cgr.rs): the clone of
the caller's bundle handed to pathfinding, with `priority := 1` and
`size := 0.0`. -/
def Cgr.bundle_no_constraints (bundle : Bundle) : Bundle :=
  { bundle with priority := 1, size := 0 }

/-- The `loop` of `Cgr::route_unicast` (src/routing/cgr.rs, lines 110-145),
fuel-bounded.  `trees n` is the tree produced by the `n`-th
`pathfinding.get_next` call (all its arguments are loop-invariant).  When a
route to `dest` exists it is initialized, dry-run and either committed
(`ok some`) or abandoned (`break` ending in `None`, i.e. `ok none`); when no
route exists the loop body simply repeats.  The outer `none` means the fuel
ran out with the loop still running. -/
def cgrRouteLoop {CM : Type} (impl : CMImpl CM) (contacts : Contacts CM)
    (bundle : Bundle) (curr_time : Date) (dest : NodeID)
    (trees : Nat → PathFindingOutput) :
    Nat → Nat → Option (Except String (Option (FirstHops × Contacts CM)))
  | _, 0 => none
  | n, fuel + 1 =>
      let tree := trees n
      match Route.from_tree tree dest with
      | some (sourceIdx, destIdx) =>
          let stages' := init_route tree.stages dest destIdx (tree.stages.length + 1)
          match dry_run_unicast_path_with_exclusions impl contacts stages' bundle curr_time
              sourceIdx with
          | some _ =>
              some ((schedule_unicast_path impl contacts stages' bundle curr_time
                sourceIdx).map some)
          | none => some (.ok none)
      | none => cgrRouteLoop impl contacts bundle curr_time dest trees (n + 1) fuel

/-- The storage-miss path of `Cgr::route_unicast` (src/routing/cgr.rs,
lines 82-146): every pathfinding call in the loop receives
`bundle_no_constraints`, never the caller's bundle. -/
def Cgr.route_unicast_loop {CM : Type} (impl : CMImpl CM) (contacts : Contacts CM)
    (bundle : Bundle) (curr_time : Date)
    (get_next : Bundle → Nat → PathFindingOutput) (fuel : Nat) :
    Option (Except String (Option (FirstHops × Contacts CM))) :=
  let dest := bundle.destinations.headD 0
  cgrRouteLoop impl contacts bundle curr_time dest
    (get_next (Cgr.bundle_no_constraints bundle)) 0 fuel

/-- Modelled from the spec: `pathfinding/mod.rs` (`try_make_hop`) and
`route_stage.rs` are not in the sources provided.  Per the spec, a successful
manager dry run of contact `c` from parent stage `p` yields a stage with
`at_time = data.arrival` (section 3: `at_time` is the arrival time at the
stage), `hop_count = p.hop_count + 1`, and
`expiration = min(p.expiration, data.expiration)` (section 3: minimum
end-of-contact along the path; the manager sets `data.expiration` from the
contact).  The manager dry run itself is the sources'
`generate_basic_volume_manager!` one. -/
def try_make_hop (add_delay : Bool) (m : BasicVolumeManager) (c : ContactInfo)
    (p : RouteStage) (bundle : Bundle) : Option RouteStage :=
  match m.dry_run_tx add_delay c p.at_time bundle with
  | none => none
  | some data =>
      some { to_node := c.rx_node, at_time := data.arrival, hop_count := p.hop_count + 1,
             expiration := min p.expiration data.expiration, via := some (0, 0),
             next_for_destination := [] }

/-- Iterated `Guard::add_limit` over a sequence of later calls. -/
def Guard.applyAddLimits (g : Guard) : List (Bundle × NodeID) → Guard
  | [] => g
  | (b, d) :: rest => (g.add_limit b d).applyAddLimits rest

/-- The `alInsert` only changes the inserted key. -/
theorem alGet_alInsert_ne (l : List ((NodeID × Priority) × Volume)) (k k' : NodeID × Priority)
    (v : Volume) (h : k' ≠ k) : alGet (alInsert l k v) k' = alGet l k' := by
  induction l with
  | nil =>
      simp only [alInsert, alGet]
      rw [if_neg (fun hh => h hh.symm)]
  | cons p rest ih =>
      obtain ⟨pk, pv⟩ := p
      by_cases hpk : pk = k
      · subst hpk
        simp [alInsert, alGet, h, Ne.symm h]
      · simp [alInsert, alGet, hpk]
        by_cases hpk' : pk = k'
        · simp [hpk']
        · simp [hpk', ih]

/-- The `alInsert` stores the inserted value at the inserted key. -/
theorem alGet_alInsert_eq (l : List ((NodeID × Priority) × Volume)) (k : NodeID × Priority)
    (v : Volume) : alGet (alInsert l k v) k = some v := by
  induction l with
  | nil => simp [alInsert, alGet]
  | cons p rest ih =>
      obtain ⟨pk, pv⟩ := p
      by_cases hpk : pk = k
      · subst hpk; simp [alInsert, alGet]
      · simp [alInsert, alGet, hpk, ih]

/-- One `add_limit` never increases a recorded limit. -/
theorem add_limit_le (g : Guard) (b : Bundle) (d : NodeID) (k : NodeID × Priority)
    (v : Volume) (h : alGet g.known_limits k = some v) :
    ∃ w, alGet ((g.add_limit b d).known_limits) k = some w ∧ w ≤ v := by
  unfold Guard.add_limit
  rcases hk : alGet g.known_limits (d, g.effPriority b) with _ | val
  · by_cases hkey : k = (d, g.effPriority b)
    · subst hkey; rw [hk] at h; exact absurd h (by simp)
    · exact ⟨v, by simp only [hk]; simpa [alGet_alInsert_ne _ _ _ _ hkey], le_refl v⟩
  · by_cases hval : val ≤ b.size
    · exact ⟨v, by simp only [hk]; simp [hval, h], le_refl v⟩
    · by_cases hkey : k = (d, g.effPriority b)
      · subst hkey
        refine ⟨b.size, by simp only [hk]; simp [hval, alGet_alInsert_eq], ?_⟩
        have : v = val := by rw [h] at hk; exact (Option.some.injEq _ _).mp hk
        subst this
        exact le_of_not_le hval
      · exact ⟨v, by simp only [hk]; simp [hval, alGet_alInsert_ne _ _ _ _ hkey, h],
          le_refl v⟩

/-- Any sequence of later `add_limit` calls never increases a recorded limit. -/
theorem applyAddLimits_le (g : Guard) (ops : List (Bundle × NodeID)) (k : NodeID × Priority)
    (v : Volume) (h : alGet g.known_limits k = some v) :
    ∃ w, alGet ((g.applyAddLimits ops).known_limits) k = some w ∧ w ≤ v := by
  induction ops generalizing g v with
  | nil => exact ⟨v, h, le_refl v⟩
  | cons op rest ih =>
      obtain ⟨b, d⟩ := op
      obtain ⟨w, hw, hwv⟩ := add_limit_le g b d k v h
      obtain ⟨w', hw', hw'w⟩ := ih (g.add_limit b d) w hw
      exact ⟨w', hw', le_trans hw'w hwv⟩

/-- C7: within one `Spsn` lifetime, when unicast pathfinding finds no route to
the destination the router records the bundle size for `(dest, priority)` via
`Guard::add_limit` and returns `None`; and a recorded limit is never increased
by any later `add_limit`. -/
theorem c7_spsn_guard_records_and_is_monotone :
    (∀ {CM : Type} (impl : CMImpl CM) (contacts : Contacts CM) (g : Guard)
       (cache : TreeCache) (bundle : Bundle) (curr_time : Date)
       (excluded_nodes : List NodeID) (new_tree : PathFindingOutput),
       g.must_abort bundle = false →
       (cache.select impl contacts bundle curr_time excluded_nodes).1 = none →
       new_tree.by_destination.getD (bundle.destinations.headD 0) none = none →
       Spsn.route_unicast impl contacts g cache bundle curr_time excluded_nodes new_tree =
         (.ok none, g.add_limit bundle (bundle.destinations.headD 0),
          cache.store new_tree)) ∧
    (∀ (g : Guard) (ops : List (Bundle × NodeID)) (k : NodeID × Priority) (v : Volume),
       alGet g.known_limits k = some v →
       ∃ w, alGet ((g.applyAddLimits ops).known_limits) k = some w ∧ w ≤ v) := by
  constructor
  · intro CM impl contacts g cache bundle curr_time excluded_nodes new_tree habort hsel hdest
    unfold Spsn.route_unicast
    rw [habort]
    simp only [Bool.false_eq_true, if_false]
    rcases hs : cache.select impl contacts bundle curr_time excluded_nodes with ⟨o1, o2⟩
    rw [hs] at hsel
    simp only at hsel
    subst hsel
    simp only [hdest]
  · exact applyAddLimits_le

/-- An empty tree over four nodes, used to exercise the guard path. -/
def emptyTree4 : PathFindingOutput :=
  { bundle := { source := 0, destinations := [3], priority := 0, size := 1, expiration := 100 },
    source_route := 0, excluded_nodes_sorted := [],
    by_destination := [none, none, none, none],
    stages := [{ to_node := 0, at_time := 0, hop_count := 0, expiration := 0, via := none,
                 next_for_destination := [] }] }

/-- Witness for C7 at a concrete router state. -/
theorem c7_spsn_guard_records_and_is_monotone_witness :
    Spsn.route_unicast evlImpl []
      (Guard.new false) { check_size := false, check_priority := false, max_entries := 4, trees := [] }
      { source := 0, destinations := [3], priority := 0, size := 1, expiration := 100 } 0 []
      emptyTree4 =
      (.ok none,
       (Guard.new false).add_limit
         { source := 0, destinations := [3], priority := 0, size := 1, expiration := 100 } 3,
       TreeCache.store
         { check_size := false, check_priority := false, max_entries := 4, trees := [] }
         emptyTree4) :=
  c7_spsn_guard_records_and_is_monotone.1 evlImpl [] (Guard.new false)
    { check_size := false, check_priority := false, max_entries := 4, trees := [] }
    { source := 0, destinations := [3], priority := 0, size := 1, expiration := 100 } 0 []
    emptyTree4
    (by simp [Guard.must_abort, Guard.new, Guard.effPriority, alGet])
    (by simp [TreeCache.select, treeCacheSelectLoop])
    (by simp [emptyTree4])

/-- C2: when pathfinding never finds a route to the destination, the
`Cgr::route_unicast` loop never exits — for every amount of fuel it is still
running — contradicting the claimed bounded termination with `None`. -/
theorem c2_cgr_loop_never_terminates_without_route {CM : Type} (impl : CMImpl CM)
    (contacts : Contacts CM) (bundle : Bundle) (curr_time : Date) (dest : NodeID)
    (trees : Nat → PathFindingOutput)
    (h : ∀ n, (trees n).by_destination.getD dest none = none) :
    ∀ n fuel, cgrRouteLoop impl contacts bundle curr_time dest trees n fuel = none := by
  intro n fuel
  induction fuel generalizing n with
  | zero => rfl
  | succ f ih =>
      unfold cgrRouteLoop
      simp only [Route.from_tree, h n]
      exact ih (n + 1)

/-- Witness for C2: a concrete planner state with no route to node 3. -/
theorem c2_cgr_loop_never_terminates_without_route_witness :
    cgrRouteLoop evlImpl []
      { source := 0, destinations := [3], priority := 0, size := 1, expiration := 100 } 0 3
      (fun _ => emptyTree4) 0 7 = none :=
  c2_cgr_loop_never_terminates_without_route evlImpl []
    { source := 0, destinations := [3], priority := 0, size := 1, expiration := 100 } 0 3
    (fun _ => emptyTree4) (fun _ => by simp [emptyTree4]) 0 7

/-- The grouping loop of `build_multicast_output` can only end in `ok` of the
accumulated groups or in the malformed-route panic. -/
theorem buildFirstHopsLoop_cases (stages : List RouteStage) (reached : List NodeID)
    (entries : List (NodeID × Nat)) (acc : FirstHops) :
    (∃ fh, buildFirstHopsLoop stages reached entries acc = .ok fh) ∨
    buildFirstHopsLoop stages reached entries acc =
      .error "Malformed route, no via contact or route" := by
  induction entries generalizing acc with
  | nil => exact .inl ⟨acc, rfl⟩
  | cons e rest ih =>
      obtain ⟨dest, ridx⟩ := e
      unfold buildFirstHopsLoop
      by_cases hc : reached.contains dest
      · simp only [hc, if_true]
        rcases hv : (stages.get? ridx).bind (fun r => r.via) with _ | ⟨ci, pi⟩
        · exact .inr rfl
        · exact ih _
      · simp only [hc, Bool.false_eq_true, if_false]
        exact ih _

/-- The `build_multicast_output` never returns normally: its body ends in
`todo!()`. -/
theorem build_multicast_output_never_ok (stages : List RouteStage) (source_route : Nat)
    (reached : List NodeID) :
    ∃ e, build_multicast_output stages source_route reached = .error e := by
  unfold build_multicast_output
  rcases h : stages.get? source_route with _ | src
  · exact ⟨_, rfl⟩
  · rcases buildFirstHopsLoop_cases stages reached src.next_for_destination [] with ⟨fh, hok⟩ | herr
    · exact ⟨"not implemented", by simp only [hok]⟩
    · exact ⟨"Malformed route, no via contact or route", by simp only [herr]⟩

/-- C1: `Spsn::route_multicast` never produces a `RoutingOutput`: every path
through it reaches `build_multicast_output`, whose body ends in `todo!()`
(the `RoutingOutput { first_hops }` return is commented out), so the claimed
grouped first-hop output is never returned. -/
theorem c1_spsn_route_multicast_never_returns_output {CM : Type} (impl : CMImpl CM)
    (contacts : Contacts CM) (cache : TreeCache) (bundle : Bundle) (curr_time : Date)
    (excluded_nodes : List NodeID) (new_tree : PathFindingOutput) :
    ∃ e, (Spsn.route_multicast impl contacts cache bundle curr_time excluded_nodes
      new_tree).1 = .error e := by
  have hsched : ∀ (cs : Contacts CM) (tree : PathFindingOutput) (targets : List NodeID)
      (dry : Bool), ∃ e, schedule_multicast impl cs bundle curr_time tree targets dry =
        .error e := by
    intro cs tree targets dry
    unfold schedule_multicast
    obtain ⟨e, he⟩ := build_multicast_output_never_ok
      (if dry then
        ((dry_run_multicast impl cs bundle curr_time tree).2.1,
         (dry_run_multicast impl cs bundle curr_time tree).2.2)
       else (targets, tree)).2.stages
      (if dry then
        ((dry_run_multicast impl cs bundle curr_time tree).2.1,
         (dry_run_multicast impl cs bundle curr_time tree).2.2)
       else (targets, tree)).2.source_route
      (if dry then
        ((dry_run_multicast impl cs bundle curr_time tree).2.1,
         (dry_run_multicast impl cs bundle curr_time tree).2.2)
       else (targets, tree)).1
    exact ⟨e, by simp only [he]⟩
  unfold Spsn.route_multicast
  rcases hs : cache.select impl contacts bundle curr_time excluded_nodes with ⟨o1, o2⟩
  rcases o1 with _ | tree
  · simpa using hsched contacts new_tree [] true
  · rcases o2 with _ | reachable
    · simpa using hsched contacts new_tree [] true
    · by_cases hlen : bundle.destinations.length = reachable.length
      · simpa [hlen] using hsched contacts tree reachable false
      · simpa [hlen] using hsched contacts new_tree [] true

/-- C10: the bundle handed to pathfinding by `Cgr::route_unicast` has size 0
and priority 1, and is identical for any two caller bundles agreeing on the
remaining fields — the search is independent of the caller's size and
priority. -/
theorem c10_cgr_search_independent_of_size_and_priority (b1 b2 : Bundle)
    (hsrc : b1.source = b2.source) (hdst : b1.destinations = b2.destinations)
    (hexp : b1.expiration = b2.expiration) :
    (Cgr.bundle_no_constraints b1).size = 0 ∧
    (Cgr.bundle_no_constraints b1).priority = 1 ∧
    Cgr.bundle_no_constraints b1 = Cgr.bundle_no_constraints b2 ∧
    (∀ get_next : Bundle → Nat → PathFindingOutput,
       get_next (Cgr.bundle_no_constraints b1) = get_next (Cgr.bundle_no_constraints b2)) := by
  have hb : Cgr.bundle_no_constraints b1 = Cgr.bundle_no_constraints b2 := by
    cases b1; cases b2
    simp_all [Cgr.bundle_no_constraints]
  exact ⟨rfl, rfl, hb, fun gn => by rw [hb]⟩

/-- Witness for C10 at two bundles differing only in size and priority. -/
theorem c10_cgr_search_independent_of_size_and_priority_witness :
    (Cgr.bundle_no_constraints
      { source := 0, destinations := [3], priority := 2, size := 7, expiration := 50 }).size = 0 ∧
    (Cgr.bundle_no_constraints
      { source := 0, destinations := [3], priority := 2, size := 7, expiration := 50 }).priority
      = 1 ∧
    Cgr.bundle_no_constraints
      { source := 0, destinations := [3], priority := 2, size := 7, expiration := 50 } =
      Cgr.bundle_no_constraints
        { source := 0, destinations := [3], priority := 0, size := 99, expiration := 50 } ∧
    (∀ get_next : Bundle → Nat → PathFindingOutput,
       get_next (Cgr.bundle_no_constraints
         { source := 0, destinations := [3], priority := 2, size := 7, expiration := 50 }) =
       get_next (Cgr.bundle_no_constraints
         { source := 0, destinations := [3], priority := 0, size := 99, expiration := 50 })) :=
  c10_cgr_search_independent_of_size_and_priority
    { source := 0, destinations := [3], priority := 2, size := 7, expiration := 50 }
    { source := 0, destinations := [3], priority := 0, size := 99, expiration := 50 }
    rfl rfl rfl

/-- Any successful basic-manager dry run satisfies
`arrival = tx_end + delay`. -/
theorem basic_dry_run_arrival (add_delay : Bool) (m : BasicVolumeManager)
    (cd : ContactInfo) (at_time : Date) (b : Bundle) (data : ContactManagerTxData)
    (h : m.dry_run_tx add_delay cd at_time b = some data) :
    data.arrival = data.tx_end + data.delay := by
  simp only [BasicVolumeManager.dry_run_tx] at h
  split_ifs at h <;>
    first
      | exact Option.noConfusion h
      | (injection h with h'; rw [← h']; exact add_comm _ _)

/-- Any successful priority-manager dry run satisfies
`arrival = tx_end + delay` and `arrival ≤ bundle.expiration`. -/
theorem prio_dry_run_arrival (add_delay auto_update : Bool) (m : PrioVolumeManager)
    (cd : ContactInfo) (at_time : Date) (b : Bundle) (data : ContactManagerTxData)
    (h : m.dry_run_tx add_delay auto_update cd at_time b = some data) :
    data.arrival = data.tx_end + data.delay ∧ data.arrival ≤ b.expiration := by
  simp only [PrioVolumeManager.dry_run_tx] at h
  split_ifs at h <;>
    first
      | exact Option.noConfusion h
      | (injection h with h'; rw [← h'];
         exact ⟨add_comm _ _, le_of_not_lt (by assumption)⟩)

/-- Any successful segmentation-manager dry run satisfies
`arrival = tx_end + delay`. -/
theorem segDryLoop_arrival (rates : List (Segment DataRate))
    (delays : List (Segment Duration)) (at_time : Date) (b : Bundle)
    (l : List (Segment Unit)) (data : ContactManagerTxData)
    (h : segDryLoop rates delays at_time b l = some data) :
    data.arrival = data.tx_end + data.delay := by
  induction l with
  | nil => simp [segDryLoop] at h
  | cons seg rest ih =>
      simp only [segDryLoop] at h
      split_ifs at h with h1
      · exact ih h
      · rcases hte : get_tx_end rates (max seg.start at_time) b.size seg.stop with _ | te
        · simp only [hte] at h; exact ih h
        · simp only [hte, Option.some.injEq] at h
          rw [← h]

/-- Any successful priority-segmentation dry run satisfies
`arrival = tx_end + delay`. -/
theorem psegDryLoop_arrival (rates : List (Segment DataRate))
    (delays : List (Segment Duration)) (cstop : Date) (at_time : Date) (b : Bundle)
    (l : List (Segment Int)) (tx_start : Date) (tx_end_opt : Option Date)
    (data : ContactManagerTxData)
    (h : psegDryLoop rates delays cstop at_time b l tx_start tx_end_opt = some data) :
    data.arrival = data.tx_end + data.delay := by
  induction l generalizing tx_start tx_end_opt with
  | nil => simp [psegDryLoop] at h
  | cons seg rest ih =>
      rcases tx_end_opt with _ | te
      · simp only [psegDryLoop] at h
        split_ifs at h with h1 h2
        · exact ih _ _ h
        · exact ih _ _ h
        · rcases hte : get_tx_end rates (max seg.start at_time) b.size cstop with _ | te'
          · simp only [hte] at h; exact ih _ _ h
          · simp only [hte] at h; exact ih _ _ h
      · simp only [psegDryLoop] at h
        split_ifs at h with h1 h2 hlt
        · exact ih _ _ h
        · exact ih _ _ h
        · simp only [Option.some.injEq] at h
          rw [← h]
        · exact ih _ _ h

/-- Counterexample for C3: an `EVLManager` dry run returning transmission
data whose arrival (9) exceeds the bundle's expiration (1) — the non-priority
managers never check the expiration. -/
theorem c3_counterexample_evl_ignores_expiration :
    EVLManager.dry_run_tx
      { rate := 1, delay := 5, queue_size := 0, original_volume := 10 }
      { tx_node := 0, rx_node := 1, start := 0, stop := 10 } 0
      { source := 0, destinations := [1], priority := 0, size := 4, expiration := 1 } =
      some { tx_start := 0, tx_end := 4, delay := 5, expiration := 10, arrival := 9 } ∧
    ¬((9 : Date) ≤
      ({ source := 0, destinations := [1], priority := 0, size := 4,
         expiration := 1 } : Bundle).expiration) := by
  constructor
  · norm_num [EVLManager.dry_run_tx, BasicVolumeManager.dry_run_tx]
  · norm_num

/-- C3 (amended): every manager's successful dry run satisfies
`arrival = tx_end + delay`; the priority managers additionally return `Some`
only when `arrival ≤ bundle.expiration`; the non-priority basic managers
(EVL/ETO/QD) and the segmentation managers (Seg/PSeg) do not perform the
expiration check. -/
theorem c3_arrival_identity_and_priority_expiration_check :
    (∀ (add_delay : Bool) (m : BasicVolumeManager) (cd : ContactInfo) (at_time : Date)
       (b : Bundle) (data : ContactManagerTxData),
       m.dry_run_tx add_delay cd at_time b = some data →
       data.arrival = data.tx_end + data.delay) ∧
    (∀ (add_delay auto_update : Bool) (m : PrioVolumeManager) (cd : ContactInfo)
       (at_time : Date) (b : Bundle) (data : ContactManagerTxData),
       m.dry_run_tx add_delay auto_update cd at_time b = some data →
       data.arrival = data.tx_end + data.delay ∧ data.arrival ≤ b.expiration) ∧
    (∀ (m : SegmentationManager) (cd : ContactInfo) (at_time : Date) (b : Bundle)
       (data : ContactManagerTxData),
       m.dry_run_tx cd at_time b = some data →
       data.arrival = data.tx_end + data.delay) ∧
    (∀ (m : PSegmentationManager) (cd : ContactInfo) (at_time : Date) (b : Bundle)
       (data : ContactManagerTxData),
       m.dry_run_tx cd at_time b = some data →
       data.arrival = data.tx_end + data.delay) :=
  ⟨basic_dry_run_arrival,
   prio_dry_run_arrival,
   fun m _cd at_time b data h => segDryLoop_arrival m.rate_intervals m.delay_intervals
     at_time b m.free_intervals data h,
   fun m cd at_time b data h => psegDryLoop_arrival m.rate_intervals m.delay_intervals
     cd.stop at_time b m.booking at_time none data h⟩

/-- Witness for C3 at a concrete PQD dry run. -/
theorem c3_arrival_identity_and_priority_expiration_check_witness :
    ({ tx_start := 0, tx_end := 6, delay := 2, expiration := 100,
       arrival := 8 } : ContactManagerTxData).arrival =
      ({ tx_start := 0, tx_end := 6, delay := 2, expiration := 100,
         arrival := 8 } : ContactManagerTxData).tx_end +
      ({ tx_start := 0, tx_end := 6, delay := 2, expiration := 100,
         arrival := 8 } : ContactManagerTxData).delay ∧
    ({ tx_start := 0, tx_end := 6, delay := 2, expiration := 100,
       arrival := 8 } : ContactManagerTxData).arrival ≤
      ({ source := 0, destinations := [1], priority := 2, size := 6,
         expiration := 1000 } : Bundle).expiration :=
  c3_arrival_identity_and_priority_expiration_check.2.1 true true
    { rate := 1, delay := 2, queue_size := ⟨0, 0, 0⟩, original_volume := 100,
      mav := ⟨10, 10, 10⟩ }
    { tx_node := 0, rx_node := 1, start := 0, stop := 100 } 0
    { source := 0, destinations := [1], priority := 2, size := 6, expiration := 1000 }
    { tx_start := 0, tx_end := 6, delay := 2, expiration := 100, arrival := 8 }
    (by norm_num [PrioVolumeManager.dry_run_tx, PrioVolumeManager.total_queue_size,
      PrioVolumeManager.get_vol, Vol3.get])

/-- The `update_mav` never touches `queue_size`. -/
theorem update_mav_queue_size (m : PrioVolumeManager) (vol : Volume) (p : Priority) :
    (m.update_mav vol p).queue_size = m.queue_size := by
  unfold PrioVolumeManager.update_mav
  split_ifs <;> rfl

/-- The `Vol3.set` then `get` at an in-range index. -/
theorem Vol3.get_set_same (v : Vol3) (p : Nat) (x : Volume) (hp : p < 3) :
    (v.set p x).get p = x := by
  match p, hp with
  | 0, _ => rfl
  | 1, _ => rfl
  | 2, _ => rfl

/-- Counterexample for C5: a `QDManager` dry run at `at_time = 10` on a
contact starting at 0 with 5 units queued yields `tx_start = 15`, not the
claimed `info.start = 0`. -/
theorem c5_counterexample_qd_tx_start :
    (QDManager.dry_run_tx { rate := 1, delay := 0, queue_size := 5, original_volume := 100 }
      { tx_node := 0, rx_node := 1, start := 0, stop := 100 } 10
      { source := 0, destinations := [1], priority := 0, size := 2, expiration := 1000 }).map
        ContactManagerTxData.tx_start = some 15 ∧
    (15 : Date) ≠
      ({ tx_node := 0, rx_node := 1, start := 0, stop := 100 } : ContactInfo).start := by
  constructor
  · norm_num [QDManager.dry_run_tx, BasicVolumeManager.dry_run_tx]
  · norm_num

/-- C5 (amended): `QDManager` (basic macro, which adds the queue delay
regardless of `auto_update`) computes
`tx_start = max(at_time, info.start) + queue_size/rate`; `PQDManager`
computes `tx_start = info.start + queued-ahead/rate` when
`info.start > at_time` and `tx_start = info.start` otherwise; on every
successful `schedule_tx` both increment the queue by `bundle.size`. -/
theorem c5_queue_delay_tx_start_and_queue_increment :
    (∀ (m : BasicVolumeManager) (cd : ContactInfo) (at_time : Date) (b : Bundle)
       (data : ContactManagerTxData),
       QDManager.dry_run_tx m cd at_time b = some data →
       data.tx_start =
         (if cd.start > at_time then cd.start else at_time) + m.queue_size / m.rate) ∧
    (∀ (m : PrioVolumeManager) (cd : ContactInfo) (at_time : Date) (b : Bundle)
       (data : ContactManagerTxData),
       PQDManager.dry_run_tx m cd at_time b = some data →
       data.tx_start =
         if cd.start > at_time then
           cd.start + m.total_queue_size b.priority / m.rate
         else cd.start) ∧
    (∀ (m : BasicVolumeManager) (cd : ContactInfo) (at_time : Date) (b : Bundle)
       (data : ContactManagerTxData) (m' : BasicVolumeManager),
       QDManager.schedule_tx m cd at_time b = some (data, m') →
       m'.queue_size = m.queue_size + b.size) ∧
    (∀ (m : PrioVolumeManager) (cd : ContactInfo) (at_time : Date) (b : Bundle)
       (data : ContactManagerTxData) (m' : PrioVolumeManager),
       b.priority < 3 →
       PQDManager.schedule_tx m cd at_time b = some (data, m') →
       m'.queue_size.get b.priority = m.queue_size.get b.priority + b.size) := by
  refine ⟨?_, ?_, ?_, ?_⟩
  · intro m cd at_time b data h
    simp only [QDManager.dry_run_tx, BasicVolumeManager.dry_run_tx] at h
    split_ifs at h with h1 h2 <;>
      first
        | exact Option.noConfusion h
        | (injection h with h'; rw [← h']; simp [*])
  · intro m cd at_time b data h
    simp only [PQDManager.dry_run_tx, PrioVolumeManager.dry_run_tx, Bool.not_true,
      Bool.false_eq_true, if_true, if_false] at h
    split_ifs at h <;>
      first
        | exact Option.noConfusion h
        | (injection h with h'; rw [← h']; simp [*])
  · intro m cd at_time b data m' h
    simp only [QDManager.schedule_tx, BasicVolumeManager.schedule_tx] at h
    rcases hd : BasicVolumeManager.dry_run_tx true m cd at_time b with _ | d
    · rw [hd] at h; exact Option.noConfusion h
    · rw [hd] at h
      simp only [if_true, Option.some.injEq, Prod.mk.injEq] at h
      rw [← h.2]
  · intro m cd at_time b data m' hp h
    simp only [PQDManager.schedule_tx, PrioVolumeManager.schedule_tx] at h
    rcases hd : PrioVolumeManager.dry_run_tx true true m cd at_time b with _ | d
    · rw [hd] at h; exact Option.noConfusion h
    · rw [hd] at h
      simp only [if_true, Option.some.injEq, Prod.mk.injEq] at h
      rw [← h.2]
      simp only [update_mav_queue_size]
      exact Vol3.get_set_same _ _ _ hp

/-- Witness for C5 at a concrete PQD schedule. -/
theorem c5_queue_delay_tx_start_and_queue_increment_witness :
    Vol3.get ⟨0, 0, 6⟩ 2 = Vol3.get ⟨0, 0, 0⟩ 2 + 6 :=
  c5_queue_delay_tx_start_and_queue_increment.2.2.2
    { rate := 1, delay := 0, queue_size := ⟨0, 0, 0⟩, original_volume := 0,
      mav := ⟨10, 10, 10⟩ }
    { tx_node := 0, rx_node := 1, start := 0, stop := 100 } 0
    { source := 0, destinations := [3], priority := 2, size := 6, expiration := 1000 }
    { tx_start := 0, tx_end := 6, delay := 0, expiration := 100, arrival := 6 }
    { rate := 1, delay := 0, queue_size := ⟨0, 0, 6⟩, original_volume := 0,
      mav := ⟨4, 4, 10⟩ }
    (by norm_num)
    (by norm_num [PQDManager.schedule_tx, PrioVolumeManager.schedule_tx,
      PrioVolumeManager.dry_run_tx, PrioVolumeManager.total_queue_size,
      PrioVolumeManager.get_vol, PrioVolumeManager.update_mav, updateMavLoop,
      Vol3.get, Vol3.set, Vol3.zeroBelow])

/-- Field-level facts about any successful basic-manager dry run. -/
theorem basic_dry_run_facts (add_delay : Bool) (m : BasicVolumeManager) (cd : ContactInfo)
    (at_time : Date) (b : Bundle) (data : ContactManagerTxData)
    (h : m.dry_run_tx add_delay cd at_time b = some data) :
    data.delay = m.delay ∧ data.expiration = cd.stop ∧
    data.tx_end = data.tx_start + b.size / m.rate ∧
    data.tx_end ≤ cd.stop ∧ data.arrival = m.delay + data.tx_end ∧
    data.tx_start = (if cd.start > at_time then cd.start else at_time) +
      (if add_delay then m.queue_size / m.rate else 0) := by
  simp only [BasicVolumeManager.dry_run_tx] at h
  split_ifs at h <;>
    first
      | exact Option.noConfusion h
      | (injection h with h'; rw [← h'];
         exact ⟨rfl, rfl, rfl, le_of_not_lt (by assumption), rfl, by simp [*]⟩)

/-- Counterexample for C4: a hop over a contact ending at 100 with link delay
10 produces a stage with `at_time = 110 > c.info.end = 100` (the stage's
`at_time` is the arrival, which includes the delay). -/
theorem c4_counterexample_at_time_exceeds_contact_end :
    (try_make_hop false { rate := 1, delay := 10, queue_size := 0, original_volume := 100 }
      { tx_node := 0, rx_node := 1, start := 0, stop := 100 }
      { to_node := 0, at_time := 95, hop_count := 0, expiration := 1000, via := none,
        next_for_destination := [] }
      { source := 0, destinations := [1], priority := 0, size := 5,
        expiration := 10000 }).map RouteStage.at_time = some 110 ∧
    ¬((110 : Date) ≤
      ({ tx_node := 0, rx_node := 1, start := 0, stop := 100 } : ContactInfo).stop) := by
  constructor
  · norm_num [try_make_hop, BasicVolumeManager.dry_run_tx]
  · norm_num

/-- C4 (amended): for a stage `s` built from parent `p` over contact `c` with
a basic volume manager (delay ≥ 0, rate > 0, size ≥ 0, queue ≥ 0):
`s.at_time ≥ max(p.at_time, c.info.start)`,
`s.at_time ≤ c.info.end + delay` (the arrival may exceed the contact end by
the link delay; the transmission itself ends by `c.info.end`),
`s.hop_count = p.hop_count + 1`, and
`s.expiration = min(p.expiration, c.info.end)`. -/
theorem c4_route_stage_hop_invariants (add_delay : Bool) (m : BasicVolumeManager)
    (c : ContactInfo) (p : RouteStage) (b : Bundle) (s : RouteStage)
    (hdelay : 0 ≤ m.delay) (hrate : 0 < m.rate) (hsize : 0 ≤ b.size)
    (hqueue : 0 ≤ m.queue_size)
    (h : try_make_hop add_delay m c p b = some s) :
    max p.at_time c.start ≤ s.at_time ∧ s.at_time ≤ c.stop + m.delay ∧
    s.hop_count = p.hop_count + 1 ∧ s.expiration = min p.expiration c.stop := by
  unfold try_make_hop at h
  rcases hd : BasicVolumeManager.dry_run_tx add_delay m c p.at_time b with _ | data
  · rw [hd] at h; exact Option.noConfusion h
  · rw [hd] at h
    injection h with h'
    obtain ⟨hdel, hexp, hte, hle, harr, hts⟩ :=
      basic_dry_run_facts add_delay m c p.at_time b data hd
    have hq : 0 ≤ (if add_delay then m.queue_size / m.rate else 0) := by
      split_ifs
      · exact div_nonneg hqueue hrate.le
      · exact le_refl 0
    have hsr : 0 ≤ b.size / m.rate := div_nonneg hsize hrate.le
    have hmax : max p.at_time c.start ≤ (if c.start > p.at_time then c.start else p.at_time) := by
      split_ifs with hgt
      · exact max_le (le_of_lt hgt) (le_refl _)
      · exact max_le (le_refl _) (le_of_not_lt hgt)
    refine ⟨?_, ?_, ?_, ?_⟩
    · rw [← h']
      show max p.at_time c.start ≤ data.arrival
      rw [harr, hte, hts]
      linarith
    · rw [← h']
      show data.arrival ≤ c.stop + m.delay
      rw [harr]
      linarith
    · rw [← h']
    · rw [← h']
      show min p.expiration data.expiration = min p.expiration c.stop
      rw [hexp]

/-- Witness for C4 at a concrete feasible hop. -/
theorem c4_route_stage_hop_invariants_witness :
    max (95 : Date) 0 ≤
      ({ to_node := 1, at_time := 110, hop_count := 1, expiration := 100,
         via := some (0, 0), next_for_destination := [] } : RouteStage).at_time ∧
    ({ to_node := 1, at_time := 110, hop_count := 1, expiration := 100,
       via := some (0, 0), next_for_destination := [] } : RouteStage).at_time ≤ 100 + 10 ∧
    ({ to_node := 1, at_time := 110, hop_count := 1, expiration := 100,
       via := some (0, 0), next_for_destination := [] } : RouteStage).hop_count = 0 + 1 ∧
    ({ to_node := 1, at_time := 110, hop_count := 1, expiration := 100,
       via := some (0, 0), next_for_destination := [] } : RouteStage).expiration =
      min (1000 : Date) 100 := by
  have happ := c4_route_stage_hop_invariants false
    { rate := 1, delay := 10, queue_size := 0, original_volume := 100 }
    { tx_node := 0, rx_node := 1, start := 0, stop := 100 }
    { to_node := 0, at_time := 95, hop_count := 0, expiration := 1000, via := none,
      next_for_destination := [] }
    { source := 0, destinations := [1], priority := 0, size := 5, expiration := 10000 }
    { to_node := 1, at_time := 110, hop_count := 1, expiration := 100,
      via := some (0, 0), next_for_destination := [] }
    (by norm_num) (by norm_num) (by norm_num) (by norm_num)
    (by norm_num [try_make_hop, BasicVolumeManager.dry_run_tx])
  simpa using happ

/-- Reads beyond the three bands default to 0. -/
theorem Vol3.get_ge3 (v : Vol3) (n : Nat) : v.get (n + 3) = 0 := rfl

/-- The `Vol3.set` leaves other indices unchanged. -/
theorem Vol3.get_set_ne (v : Vol3) (k i : Nat) (x : Volume) (h : i ≠ k) :
    (v.set k x).get i = v.get i := by
  match k, i with
  | 0, 0 => exact absurd rfl h
  | 1, 1 => exact absurd rfl h
  | 2, 2 => exact absurd rfl h
  | 0, 1 | 0, 2 | 1, 0 | 1, 2 | 2, 0 | 2, 1 => rfl
  | 0, n + 3 | 1, n + 3 | 2, n + 3 => rfl
  | k + 3, 0 | k + 3, 1 | k + 3, 2 | k + 3, n + 3 => rfl

/-- Reading after `zeroBelow`: indices below the bound read 0. -/
theorem Vol3.get_zeroBelow (v : Vol3) (k : Nat) (hk : k ≤ 3) (i : Nat) :
    (v.zeroBelow k).get i = if i < k then 0 else v.get i := by
  induction k with
  | zero => simp [Vol3.zeroBelow]
  | succ k ih =>
      have hk' : k ≤ 3 := Nat.le_of_succ_le hk
      by_cases hik : i = k
      · subst hik
        simp only [Vol3.zeroBelow]
        rw [Vol3.get_set_same _ _ _ (Nat.lt_of_lt_of_le (Nat.lt_succ_self i) hk)]
        simp [Nat.lt_succ_self]
      · simp only [Vol3.zeroBelow]
        rw [Vol3.get_set_ne _ _ _ _ hik, ih hk']
        by_cases hlt : i < k
        · simp [hlt, Nat.lt_succ_of_lt hlt]
        · have hns : ¬ i < k + 1 := by omega
          simp [hlt, hns]


/-- Pointwise characterization of the `update_mav` loop: bands at or above
`p` are untouched; scanning down from `p - 1`, bands strictly above the first
band whose MAV is at most the volume are reduced by the volume, that band
itself is left unchanged, and all bands below it are zeroed. -/
theorem updateMavLoop_get (mav : Vol3) (s : Volume) (p : Nat) (hp : p ≤ 3) :
    (∀ i, p ≤ i → (updateMavLoop mav s p).get i = mav.get i) ∧
    (∀ i, i < p →
       ((∀ j, i < j → j < p → s < mav.get j) → s < mav.get i →
          (updateMavLoop mav s p).get i = mav.get i - s) ∧
       ((∀ j, i < j → j < p → s < mav.get j) → ¬ s < mav.get i →
          (updateMavLoop mav s p).get i = mav.get i) ∧
       (¬ (∀ j, i < j → j < p → s < mav.get j) →
          (updateMavLoop mav s p).get i = 0)) := by
  induction p generalizing mav with
  | zero => exact ⟨fun i _ => rfl, fun i hi => absurd hi (Nat.not_lt_zero i)⟩
  | succ p ih =>
      have hp3 : p < 3 := hp
      have hp' : p ≤ 3 := le_of_lt hp3
      simp only [updateMavLoop]
      by_cases hcmp : mav.get p > s
      · rw [if_pos hcmp]
        obtain ⟨ih1, ih2⟩ := ih (mav.set p (mav.get p - s)) hp'
        have hget : ∀ j, j ≠ p → (mav.set p (mav.get p - s)).get j = mav.get j :=
          fun j hj => Vol3.get_set_ne _ _ _ _ hj
        constructor
        · intro i hi
          have hip : i ≠ p := by omega
          rw [ih1 i (by omega), hget i hip]
        · intro i hi
          rcases Nat.lt_succ_iff_lt_or_eq.mp hi with hilt | hieq
          · have hne : i ≠ p := by omega
            have hcond : (∀ j, i < j → j < p + 1 → s < mav.get j) →
                (∀ j, i < j → j < p → s < (mav.set p (mav.get p - s)).get j) := by
              intro hall j hij hjp
              rw [hget j (by omega)]
              exact hall j hij (by omega)
            have hcond' : (∀ j, i < j → j < p → s < (mav.set p (mav.get p - s)).get j) →
                (∀ j, i < j → j < p + 1 → s < mav.get j) := by
              intro hall j hij hjp
              rcases Nat.lt_succ_iff_lt_or_eq.mp hjp with hj | hj
              · have hthis := hall j hij hj
                rwa [hget j (by omega)] at hthis
              · subst hj; exact hcmp
            refine ⟨?_, ?_, ?_⟩
            · intro hall hsi
              rw [(ih2 i hilt).1 (hcond hall) (by rwa [hget i hne]), hget i hne]
            · intro hall hsi
              rw [(ih2 i hilt).2.1 (hcond hall) (by rwa [hget i hne]), hget i hne]
            · intro hnc
              exact (ih2 i hilt).2.2 (fun hall => hnc (hcond' hall))
          · subst hieq
            refine ⟨?_, ?_, ?_⟩
            · intro _ _
              rw [ih1 i (le_refl _), Vol3.get_set_same _ _ _ hp3]
            · intro _ hsi
              exact absurd hcmp hsi
            · intro hnc
              exact absurd (fun j hij hji => absurd hij (by omega : ¬ i < j)) hnc
      · rw [if_neg hcmp]
        constructor
        · intro i hi
          rw [Vol3.get_zeroBelow _ _ hp' i, if_neg (by omega)]
        · intro i hi
          rcases Nat.lt_succ_iff_lt_or_eq.mp hi with hilt | hieq
          · have hfail : ¬ (∀ j, i < j → j < p + 1 → s < mav.get j) := by
              intro hall
              exact hcmp (hall p hilt (Nat.lt_succ_self p))
            refine ⟨?_, ?_, ?_⟩
            · intro hall _
              exact absurd hall hfail
            · intro hall _
              exact absurd hall hfail
            · intro _
              rw [Vol3.get_zeroBelow _ _ hp' i, if_pos hilt]
          · subst hieq
            refine ⟨?_, ?_, ?_⟩
            · intro _ hsi
              exact absurd hsi hcmp
            · intro _ _
              rw [Vol3.get_zeroBelow _ _ hp' i, if_neg (lt_irrefl i)]
            · intro hnc
              exact absurd (fun j hij hji => absurd hij (by omega : ¬ i < j)) hnc

/-- A successful priority-manager schedule applies `updateMavLoop` to the MAV
(the queue update leaves the MAV alone). -/
theorem prio_schedule_mav (add_delay auto_update : Bool) (m : PrioVolumeManager)
    (cd : ContactInfo) (at_time : Date) (b : Bundle) (data : ContactManagerTxData)
    (m' : PrioVolumeManager) (hp : b.priority < 3)
    (h : m.schedule_tx add_delay auto_update cd at_time b = some (data, m')) :
    m'.mav = updateMavLoop m.mav b.size b.priority := by
  simp only [PrioVolumeManager.schedule_tx] at h
  rcases hd : PrioVolumeManager.dry_run_tx add_delay auto_update m cd at_time b with _ | d
  · rw [hd] at h; exact Option.noConfusion h
  · rw [hd] at h
    simp only [Option.some.injEq, Prod.mk.injEq] at h
    rw [← h.2]
    unfold PrioVolumeManager.update_mav
    rw [if_pos hp]
    split_ifs <;> rfl

/-- Counterexample for C6: scheduling a priority-2 size-6 bundle against
MAV `[10, 5, 10]` yields MAV `[0, 5, 10]` — band 1 (whose MAV 5 is below the
size) is left at 5, not saturated to `max(5 - 6, 0) = 0`, and band 0 is
zeroed rather than reduced to 4. -/
theorem c6_counterexample_pivot_band_not_saturated :
    (PQDManager.schedule_tx
      { rate := 1, delay := 0, queue_size := ⟨0, 0, 0⟩, original_volume := 0,
        mav := ⟨10, 5, 10⟩ }
      { tx_node := 0, rx_node := 1, start := 0, stop := 100 } 0
      { source := 0, destinations := [3], priority := 2, size := 6,
        expiration := 1000 }).map (fun r => r.2.mav) = some ⟨0, 5, 10⟩ ∧
    ¬(Vol3.get ⟨0, 5, 10⟩ 1 = max ((5 : Volume) - 6) 0) := by
  constructor
  · norm_num [PQDManager.schedule_tx, PrioVolumeManager.schedule_tx,
      PrioVolumeManager.dry_run_tx, PrioVolumeManager.update_mav, updateMavLoop,
      Vol3.zeroBelow, Vol3.set, Vol3.get, PrioVolumeManager.total_queue_size,
      PrioVolumeManager.get_vol]
  · norm_num [Vol3.get]

/-- C6 (amended): after a successful priority-manager `schedule_tx` of size
`s` at priority `p < 3`, every band `i ≥ p` is unchanged; a band `i < p` is
reduced by `s` when it and every band strictly between it and `p` have MAV
strictly above `s`; the first band scanned downward with MAV at most `s` is
left unchanged; and every band below that one is set to 0. -/
theorem c6_schedule_tx_mav_update (add_delay auto_update : Bool)
    (m : PrioVolumeManager) (cd : ContactInfo) (at_time : Date) (b : Bundle)
    (data : ContactManagerTxData) (m' : PrioVolumeManager)
    (hp : b.priority < 3)
    (h : m.schedule_tx add_delay auto_update cd at_time b = some (data, m')) :
    (∀ i, b.priority ≤ i → m'.mav.get i = m.mav.get i) ∧
    (∀ i, i < b.priority →
       ((∀ j, i < j → j < b.priority → b.size < m.mav.get j) → b.size < m.mav.get i →
          m'.mav.get i = m.mav.get i - b.size) ∧
       ((∀ j, i < j → j < b.priority → b.size < m.mav.get j) → ¬ b.size < m.mav.get i →
          m'.mav.get i = m.mav.get i) ∧
       (¬ (∀ j, i < j → j < b.priority → b.size < m.mav.get j) →
          m'.mav.get i = 0)) := by
  rw [prio_schedule_mav add_delay auto_update m cd at_time b data m' hp h]
  exact updateMavLoop_get m.mav b.size b.priority (le_of_lt hp)

/-- Witness for C6 at the spec's own example (MAV `[10,10,10]`, priority-2
size-6 schedule, MAV becomes `[4,4,10]`). -/
theorem c6_schedule_tx_mav_update_witness :
    Vol3.get ⟨4, 4, 10⟩ 1 = Vol3.get ⟨10, 10, 10⟩ 1 - 6 := by
  have happ := c6_schedule_tx_mav_update true true
    { rate := 1, delay := 0, queue_size := ⟨0, 0, 0⟩, original_volume := 0,
      mav := ⟨10, 10, 10⟩ }
    { tx_node := 0, rx_node := 1, start := 0, stop := 100 } 0
    { source := 0, destinations := [3], priority := 2, size := 6, expiration := 1000 }
    { tx_start := 0, tx_end := 6, delay := 0, expiration := 100, arrival := 6 }
    { rate := 1, delay := 0, queue_size := ⟨0, 0, 6⟩, original_volume := 0,
      mav := ⟨4, 4, 10⟩ }
    (by norm_num)
    (by norm_num [PrioVolumeManager.schedule_tx, PrioVolumeManager.dry_run_tx,
      PrioVolumeManager.total_queue_size, PrioVolumeManager.get_vol,
      PrioVolumeManager.update_mav, updateMavLoop, Vol3.get, Vol3.set,
      Vol3.zeroBelow])
  have hvac : ∀ j, 1 < j → j < (2 : Nat) → (6 : Volume) < Vol3.get ⟨10, 10, 10⟩ j := by
    intro j h1 h2; omega
  exact (happ.2 1 (by norm_num)).1 hvac (by norm_num [Vol3.get])

/-- Contact used by the segmentation round-trip scenario. -/
def segInfo9 : ContactInfo := { tx_node := 0, rx_node := 1, start := 0, stop := 100 }

/-- Freshly parsed segmentation manager: one rate segment (rate 1) and one
delay segment (delay 2) spanning the contact, free intervals not yet
installed. -/
def segM9init : SegmentationManager :=
  { free_intervals := [],
    rate_intervals := [{ start := 0, stop := 100, val := 1 }],
    delay_intervals := [{ start := 0, stop := 100, val := 2 }] }

/-- The manager after `try_init`: one free interval spanning the contact. -/
def segM9a : SegmentationManager :=
  { segM9init with free_intervals := [{ start := 0, stop := 100, val := () }] }

/-- The manager after scheduling a size-5 bundle at `at_time = 10`: the free
interval is split into `[0,10]` and `[15,100]`. -/
def segM9b : SegmentationManager :=
  { segM9init with
    free_intervals := [{ start := 0, stop := 10, val := () },
                       { start := 15, stop := 100, val := () }] }

/-- The corrupted manager produced by the second `schedule_tx`: the expired
interval `[0,10]` was mutated instead of `[15,100]`. -/
def segM9c : SegmentationManager :=
  { segM9init with
    free_intervals := [{ start := 0, stop := 20, val := () },
                       { start := 25, stop := 10, val := () },
                       { start := 15, stop := 100, val := () }] }

/-- Bundle used by the segmentation round-trip scenario. -/
def b9 : Bundle :=
  { source := 0, destinations := [1], priority := 0, size := 5, expiration := 1000 }

/-- C9 failing input, evaluated: from a legitimately reached manager state
(`try_init`, then one committed schedule), a dry run at `at_time = 20`
returns `expiration = 100` but the immediately following `schedule_tx` with
identical arguments returns `expiration = 10` (the scan's `index` does not
count intervals skipped as expired, so the wrong free interval is split). -/
theorem c9_seg_schedule_tx_mismatches_preceding_dry_run :
    SegmentationManager.try_init segM9init segInfo9 = (true, segM9a) ∧
    SegmentationManager.schedule_tx segM9a segInfo9 10 b9 =
      .ok ({ tx_start := 10, tx_end := 15, delay := 2, expiration := 100, arrival := 17 },
           segM9b) ∧
    SegmentationManager.dry_run_tx segM9b segInfo9 20 b9 =
      some { tx_start := 20, tx_end := 25, delay := 2, expiration := 100, arrival := 27 } ∧
    SegmentationManager.schedule_tx segM9b segInfo9 20 b9 =
      .ok ({ tx_start := 20, tx_end := 25, delay := 2, expiration := 10, arrival := 27 },
           segM9c) ∧
    ({ tx_start := 20, tx_end := 25, delay := 2, expiration := 100,
       arrival := 27 } : ContactManagerTxData) ≠
      { tx_start := 20, tx_end := 25, delay := 2, expiration := 10, arrival := 27 } := by
  refine ⟨?_, ?_, ?_, ?_, ?_⟩
  · norm_num [SegmentationManager.try_init, segCovers, segChainEnd, segM9init, segM9a,
      segInfo9]
  · norm_num [SegmentationManager.schedule_tx, segScheduleScan, get_tx_end, get_delay,
      segM9a, segM9b, segM9init, segInfo9, b9, List.insertIdx]
  · norm_num [SegmentationManager.dry_run_tx, segDryLoop, get_tx_end, get_delay,
      segM9b, segM9init, segInfo9, b9]
  · norm_num [SegmentationManager.schedule_tx, segScheduleScan, get_tx_end, get_delay,
      segM9b, segM9c, segM9init, segInfo9, b9, List.insertIdx]
  · intro hh
    exact absurd (congrArg ContactManagerTxData.expiration hh) (by norm_num)

/-- The multicast replay never changes a tree's recorded excluded set. -/
theorem dry_run_multicast_excluded {CM : Type} (impl : CMImpl CM) (contacts : Contacts CM)
    (bundle : Bundle) (at_time : Date) (tree : PathFindingOutput) :
    ((dry_run_multicast impl contacts bundle at_time tree).2.2).excluded_nodes_sorted =
      tree.excluded_nodes_sorted := rfl

/-- The unicast replay never changes a tree's recorded excluded set. -/
theorem dry_run_unicast_tree_excluded {CM : Type} (impl : CMImpl CM)
    (contacts : Contacts CM) (bundle : Bundle) (at_time : Date)
    (tree : PathFindingOutput) :
    ((dry_run_unicast_tree impl contacts bundle at_time tree).2).excluded_nodes_sorted =
      tree.excluded_nodes_sorted := by
  simp only [dry_run_unicast_tree]
  rcases h : tree.by_destination.getD (bundle.destinations.headD 0) none with _ | di
  · rfl
  · rfl

/-- Manager arena for the cache counterexample: contact 0→1 is fully booked
(queue = original volume), contact 1→2 is free. -/
def cxContacts : Contacts BasicVolumeManager :=
  [({ tx_node := 0, rx_node := 1, start := 0, stop := 10 },
    { rate := 1, delay := 0, queue_size := 10, original_volume := 10 }),
   ({ tx_node := 1, rx_node := 2, start := 0, stop := 10 },
    { rate := 1, delay := 0, queue_size := 0, original_volume := 10 })]

/-- Multicast bundle for the cache counterexample. -/
def cxBundle : Bundle :=
  { source := 0, destinations := [1, 2], priority := 0, size := 5, expiration := 1000 }

/-- Cached tree 0 →(c0) 1 →(c1) 2 reaching both destinations. -/
def cxTree : PathFindingOutput :=
  { bundle := cxBundle, source_route := 0, excluded_nodes_sorted := [],
    by_destination := [some 0, some 1, some 2],
    stages :=
      [{ to_node := 0, at_time := 0, hop_count := 0, expiration := 1000, via := none,
         next_for_destination := [] },
       { to_node := 1, at_time := 2, hop_count := 1, expiration := 10, via := some (0, 0),
         next_for_destination := [] },
       { to_node := 2, at_time := 4, hop_count := 2, expiration := 10, via := some (1, 1),
         next_for_destination := [] }] }

/-- A cache holding just `cxTree`, with the shadowing checks off. -/
def cxCache : TreeCache :=
  { check_size := false, check_priority := false, max_entries := 10, trees := [cxTree] }

/-- The `cxTree.stages` after `dry_run_multicast` has initialized the forward
routes for destinations 1 and 2. -/
def cxStages2 : List RouteStage :=
  [{ to_node := 0, at_time := 0, hop_count := 0, expiration := 1000, via := none,
     next_for_destination := [(1, 1), (2, 1)] },
   { to_node := 1, at_time := 2, hop_count := 1, expiration := 10, via := some (0, 0),
     next_for_destination := [(2, 2)] },
   { to_node := 2, at_time := 4, hop_count := 2, expiration := 10, via := some (1, 1),
     next_for_destination := [] }]

/-- Counterexample for C8: for the multicast request `cxBundle` the cache
returns the stored tree (with both destinations as reachable) even though the
dry-run replay reaches no destination at all (contact 0→1 is fully booked). -/
theorem c8_counterexample_multicast_select_ignores_replay :
    (TreeCache.select cxCache evlImpl cxContacts cxBundle 0 []).1.isSome = true ∧
    (TreeCache.select cxCache evlImpl cxContacts cxBundle 0 []).2 = some [1, 2] ∧
    (dry_run_multicast evlImpl cxContacts cxBundle 0 cxTree).2.1 = [] := by
  refine ⟨rfl, rfl, ?_⟩
  have h1 : (dry_run_multicast evlImpl cxContacts cxBundle 0 cxTree).2.1 =
      rec_dry_run_multicast evlImpl cxContacts cxStages2 cxBundle 4 0 [1, 2] 0 true := rfl
  rw [h1]
  norm_num [rec_dry_run_multicast, stageDryRun, getNextFor, addToGroups, cxStages2,
    cxContacts, cxBundle, evlImpl, EVLManager.dry_run_tx, BasicVolumeManager.dry_run_tx]

/-- C8 (amended): a selected entry always has a matching excluded set and
passes the shadowing skip; for unicast requests it is returned only when the
dry-run replay succeeds (with no reachable-set component); for multicast
requests the first entry passing those two checks is returned together with
the destinations present in the tree, regardless of the replay outcome; a
miss returns `(None, None)`. -/
theorem c8_tree_cache_select_characterization {CM : Type} (impl : CMImpl CM)
    (contacts : Contacts CM) (cs cp : Bool) (bundle : Bundle) (curr_time : Date)
    (excl : List NodeID) (trees : List PathFindingOutput) :
    ((treeCacheSelectLoop impl contacts cs cp bundle curr_time excl trees).1 = none →
      (treeCacheSelectLoop impl contacts cs cp bundle curr_time excl trees).2 = none) ∧
    (bundle.destinations.length ≤ 1 →
      ∀ t, (treeCacheSelectLoop impl contacts cs cp bundle curr_time excl trees).1 = some t →
        (treeCacheSelectLoop impl contacts cs cp bundle curr_time excl trees).2 = none ∧
        t.excluded_nodes_sorted = excl ∧
        ∃ orig, orig ∈ trees ∧ orig.excluded_nodes_sorted = excl ∧
          shadowsSkips orig.bundle bundle cs cp = false ∧
          (dry_run_unicast_tree impl contacts bundle curr_time orig).1.isSome = true ∧
          t = (dry_run_unicast_tree impl contacts bundle curr_time orig).2) ∧
    (1 < bundle.destinations.length →
      ∀ t r, treeCacheSelectLoop impl contacts cs cp bundle curr_time excl trees =
          (some t, some r) →
        t.excluded_nodes_sorted = excl ∧
        ∃ orig, orig ∈ trees ∧ orig.excluded_nodes_sorted = excl ∧
          shadowsSkips orig.bundle bundle cs cp = false ∧
          r = (dry_run_multicast impl contacts bundle curr_time orig).1 ∧
          t = (dry_run_multicast impl contacts bundle curr_time orig).2.2) := by
  induction trees with
  | nil =>
      refine ⟨fun _ => rfl, fun _ t ht => ?_, fun _ t r htr => ?_⟩
      · exact absurd ht (by simp [treeCacheSelectLoop])
      · exact absurd htr (by simp [treeCacheSelectLoop])
  | cons tree rest ih =>
      obtain ⟨ih1, ih2, ih3⟩ := ih
      by_cases hsk : shadowsSkips tree.bundle bundle cs cp = true
      · refine ⟨?_, ?_, ?_⟩
        · intro hnone
          rw [treeCacheSelectLoop, if_pos hsk] at hnone ⊢
          exact ih1 hnone
        · intro hlen t ht
          rw [treeCacheSelectLoop, if_pos hsk] at ht ⊢
          obtain ⟨h1, h2, orig, ho, h3, h4, h5, h6⟩ := ih2 hlen t ht
          exact ⟨h1, h2, orig, List.mem_cons_of_mem _ ho, h3, h4, h5, h6⟩
        · intro hlen t r htr
          rw [treeCacheSelectLoop, if_pos hsk] at htr
          obtain ⟨h2, orig, ho, h3, h4, h5, h6⟩ := ih3 hlen t r htr
          exact ⟨h2, orig, List.mem_cons_of_mem _ ho, h3, h4, h5, h6⟩
      · by_cases hex : tree.excluded_nodes_sorted ≠ excl
        · refine ⟨?_, ?_, ?_⟩
          · intro hnone
            rw [treeCacheSelectLoop, if_neg hsk, if_pos hex] at hnone ⊢
            exact ih1 hnone
          · intro hlen t ht
            rw [treeCacheSelectLoop, if_neg hsk, if_pos hex] at ht ⊢
            obtain ⟨h1, h2, orig, ho, h3, h4, h5, h6⟩ := ih2 hlen t ht
            exact ⟨h1, h2, orig, List.mem_cons_of_mem _ ho, h3, h4, h5, h6⟩
          · intro hlen t r htr
            rw [treeCacheSelectLoop, if_neg hsk, if_pos hex] at htr
            obtain ⟨h2, orig, ho, h3, h4, h5, h6⟩ := ih3 hlen t r htr
            exact ⟨h2, orig, List.mem_cons_of_mem _ ho, h3, h4, h5, h6⟩
        · have hexeq : tree.excluded_nodes_sorted = excl := not_not.mp hex
          by_cases hlen : 1 < bundle.destinations.length
          · have hstep : treeCacheSelectLoop impl contacts cs cp bundle curr_time excl
                (tree :: rest) =
                (some (dry_run_multicast impl contacts bundle curr_time tree).2.2,
                 some (dry_run_multicast impl contacts bundle curr_time tree).1) := by
              rw [treeCacheSelectLoop, if_neg hsk, if_neg hex, if_pos hlen]
            refine ⟨?_, ?_, ?_⟩
            · intro hnone
              rw [hstep] at hnone
              exact absurd hnone (by simp)
            · intro hle
              exact absurd hlen (not_lt.mpr hle)
            · intro _ t r htr
              rw [hstep] at htr
              have ht := congrArg Prod.fst htr
              have hr := congrArg Prod.snd htr
              simp only at ht hr
              refine ⟨?_, tree, List.mem_cons_self _ _, hexeq, Bool.not_eq_true _ ▸ hsk, ?_, ?_⟩
              · rw [← Option.some.inj ht]
                exact (dry_run_multicast_excluded impl contacts bundle curr_time tree).trans
                  hexeq
              · exact (Option.some.inj hr).symm
              · exact (Option.some.inj ht).symm
          · rcases hdu : dry_run_unicast_tree impl contacts bundle curr_time tree
              with ⟨o1, t'⟩
            rcases o1 with _ | found
            · have hstep : treeCacheSelectLoop impl contacts cs cp bundle curr_time excl
                  (tree :: rest) =
                  treeCacheSelectLoop impl contacts cs cp bundle curr_time excl rest := by
                rw [treeCacheSelectLoop, if_neg hsk, if_neg hex, if_neg hlen, hdu]
              refine ⟨?_, ?_, ?_⟩
              · intro hnone
                rw [hstep] at hnone ⊢
                exact ih1 hnone
              · intro hle t ht
                rw [hstep] at ht ⊢
                obtain ⟨h1, h2, orig, ho, h3, h4, h5, h6⟩ := ih2 hle t ht
                exact ⟨h1, h2, orig, List.mem_cons_of_mem _ ho, h3, h4, h5, h6⟩
              · intro hl
                exact absurd hl hlen
            · have hstep : treeCacheSelectLoop impl contacts cs cp bundle curr_time excl
                  (tree :: rest) = (some t', none) := by
                rw [treeCacheSelectLoop, if_neg hsk, if_neg hex, if_neg hlen, hdu]
              refine ⟨?_, ?_, ?_⟩
              · intro hnone
                rw [hstep] at hnone
                exact absurd hnone (by simp)
              · intro hle t ht
                rw [hstep] at ht
                simp only [Option.some.injEq] at ht
                subst ht
                refine ⟨by rw [hstep], ?_, tree, List.mem_cons_self _ _, hexeq,
                  Bool.not_eq_true _ ▸ hsk, ?_, ?_⟩
                · have := dry_run_unicast_tree_excluded impl contacts bundle curr_time tree
                  rw [hdu] at this
                  exact this.trans hexeq
                · rw [hdu]; rfl
                · rw [hdu]
              · intro hl
                exact absurd hl hlen

/-- Witness for C8: the empty cache misses with `(None, None)`. -/
theorem c8_tree_cache_select_characterization_witness :
    (treeCacheSelectLoop evlImpl [] false false cxBundle 0 [] []).2 = none :=
  (c8_tree_cache_select_characterization evlImpl [] false false cxBundle 0 [] []).1 rfl
